import Mathlib

/-!
Verification of the EasyMaaS dynamic field-mapping and response-reconstruction
engine (`src/easymaas/core/decorators.py` and `src/easymaas/config/templates.py`),
shallowly embedded in Lean 4.

JSON-like Python values are modelled by the inductive type `Json`; Python dicts
become ordered association lists (insertion order is iteration order, keys are
unique), Python exceptions become `Except String`.
-/

namespace EasyMaaS

/-- A JSON-like Python value: `None`, booleans, numbers, strings, lists, dicts
(ordered association lists, mirroring Python's insertion-ordered dicts). -/
inductive Json where
  | null : Json
  | bool : Bool → Json
  | num : Int → Json
  | str : String → Json
  | arr : List Json → Json
  | obj : List (String × Json) → Json

/-- Python `key in dict` / `dict[key]`: first binding of the key in the
association list (a Python dict has at most one). -/
def lookupKey {α : Type} : List (String × α) → String → Option α
  | [], _ => none
  | (k, v) :: rest, key => if k = key then some v else lookupKey rest key

/-- Python `key in dict`. -/
def containsKey {α : Type} (kvs : List (String × α)) (key : String) : Bool :=
  (lookupKey kvs key).isSome

/-- Python `dict[key] = value`: replace in place if the key exists (keeping its
position), otherwise append at the end. -/
def dictSet {α : Type} : List (String × α) → String → α → List (String × α)
  | [], key, v => [(key, v)]
  | (k, w) :: rest, key, v =>
      if k = key then (k, v) :: rest else (k, w) :: dictSet rest key v

/-- Helper for `pySplit`: walk the characters accumulating the current token
(in reverse); whitespace closes the current token, a closed empty token is
discarded. -/
def pySplitAux : List Char → List Char → List (List Char)
  | [], cur => if cur.isEmpty then [] else [cur.reverse]
  | c :: rest, cur =>
      if c.isWhitespace then
        if cur.isEmpty then pySplitAux rest []
        else cur.reverse :: pySplitAux rest []
      else pySplitAux rest (c :: cur)

/-- Python `str.split()` with no arguments: split on whitespace runs,
discarding empty pieces. -/
def pySplit (s : String) : List String :=
  (pySplitAux s.data []).map (fun cs => String.mk cs)

/-- `len(s.split())`: the whitespace-token count used for usage accounting. -/
def countTokens (s : String) : Nat := (pySplit s).length

/-- Python truthiness of a JSON-like value (`if stream:`). -/
def truthy : Json → Bool
  | .null => false
  | .bool b => b
  | .num n => n ≠ 0
  | .str s => s ≠ ""
  | .arr xs => !xs.isEmpty
  | .obj kvs => !kvs.isEmpty

/-- Python `dict.get(key, default)`. -/
def pyDictGet (kvs : List (String × Json)) (key : String) (dflt : Json) : Json :=
  (lookupKey kvs key).getD dflt

/-- Python `str(x)` for the scalar values that reach the stringification
branches of the composers. -/
def pyStr : Json → String
  | .null => "None"
  | .bool true => "True"
  | .bool false => "False"
  | .num n => toString n
  | .str s => s
  | .arr _ => "<list>"
  | .obj _ => "<dict>"

/-!
## `_find_key_in_json` — the Recursive Key Resolver, read path

`find_key_in_json` embeds `_find_key_in_json(json_obj, target_key)`.  The
Python function returns `(False, None)` or `(True, value)`; we return
`Option Json` (`none` = not found).  `findInEntries` is the
`for key, value in json_obj.items()` loop; `findInLastElem` is the
`json_obj[-1]` access of the list branch, walking structurally to the last
element.
-/

mutual

def find_key_in_json : Json → String → Option Json
  | .obj kvs, key =>
      match lookupKey kvs key with
      | some v => some v
      | none => findInEntries kvs key
  | .arr xs, key => findInLastElem xs key
  | _, _ => none

def findInEntries : List (String × Json) → String → Option Json
  | [], _ => none
  | (_, v) :: rest, key =>
      match find_key_in_json v key with
      | some r => some r
      | none => findInEntries rest key

def findInLastElem : List Json → String → Option Json
  | [], _ => none
  | [x], key =>
      match x with
      | .obj kvs => find_key_in_json (.obj kvs) key
      | _ => none
  | _ :: y :: rest, key => findInLastElem (y :: rest) key

end

/-!
## `_map_request_to_params` — the Parameter Mapper

Declared parameter names are taken in signature order; each one is resolved
with `find_key_in_json` against the request body; a miss binds `None` and
records the name as unmapped.  Returns `(params, unmapped_params)`.
-/

def map_request_to_params (paramNames : List String)
    (request_data : List (String × Json)) :
    List (String × Json) × List String :=
  match paramNames with
  | [] => ([], [])
  | n :: rest =>
      let r := map_request_to_params rest request_data
      match find_key_in_json (.obj request_data) n with
      | some v => ((n, v) :: r.1, r.2)
      | none => ((n, Json.null) :: r.1, n :: r.2)

/-!
## `_update_json_with_key` — the Recursive Key Resolver, write path

`update_json_with_key` embeds `_update_json_with_key(json_obj, target_key,
new_value)`; Python mutates in place and returns a `bool`, we return the
success flag together with the new dict.  `updateEntries` is the
`for key, value in json_obj.items()` loop; `updateLastElem` handles the
`value[-1]` access for list values.
-/

mutual

def update_json_with_key (kvs : List (String × Json)) (key : String)
    (nv : Json) : Bool × List (String × Json) :=
  if containsKey kvs key then (true, dictSet kvs key nv)
  else updateEntries kvs key nv

def updateEntries : List (String × Json) → String → Json →
    Bool × List (String × Json)
  | [], _, _ => (false, [])
  | (k, v) :: rest, key, nv =>
      match v with
      | .obj inner =>
          match update_json_with_key inner key nv with
          | (true, inner2) => (true, (k, Json.obj inner2) :: rest)
          | (false, _) =>
              let r := updateEntries rest key nv
              (r.1, (k, v) :: r.2)
      | .arr xs =>
          match updateLastElem xs key nv with
          | (true, xs2) => (true, (k, Json.arr xs2) :: rest)
          | (false, _) =>
              let r := updateEntries rest key nv
              (r.1, (k, v) :: r.2)
      | _ =>
          let r := updateEntries rest key nv
          (r.1, (k, v) :: r.2)

def updateLastElem : List Json → String → Json → Bool × List Json
  | [], _, _ => (false, [])
  | [x], key, nv =>
      match x with
      | .obj inner =>
          match update_json_with_key inner key nv with
          | (true, inner2) => (true, [Json.obj inner2])
          | (false, _) => (false, [x])
      | _ => (false, [x])
  | x :: y :: rest, key, nv =>
      let r := updateLastElem (y :: rest) key nv
      (r.1, x :: r.2)

end

/-!
## Response envelope templates (`config/templates.py`)

`uuid.uuid4()` and `time.time()` are nondeterministic, so the fresh
identifier and timestamp are parameters.  The `model` slot receives whatever
value the caller passes (`request_data.get("model", "EasyMaaS")` in the
dispatch wrapper may produce any JSON value), so it is typed `Json`.
-/

def get_default_response (idv : String) (created : Int) (model_name : Json) :
    List (String × Json) :=
  [("id", .str idv),
   ("object", .str "chat.completion"),
   ("created", .num created),
   ("model", model_name),
   ("choices", .arr [.obj [
      ("index", .num 0),
      ("message", .obj [("role", .str "assistant"),
                        ("content", .str "Hello from EasyMaaS")]),
      ("finish_reason", .str "stop")]]),
   ("usage", .obj [("prompt_tokens", .num 0),
                   ("completion_tokens", .num 0),
                   ("total_tokens", .num 0)])]

def get_stream_response (idv : String) (created : Int) (model_name : Json) :
    List (String × Json) :=
  [("id", .str idv),
   ("object", .str "chat.completion.chunk"),
   ("created", .num created),
   ("model", model_name),
   ("choices", .arr [.obj [
      ("index", .num 0),
      ("delta", .obj [("role", .str "assistant"), ("content", .str "")]),
      ("finish_reason", .null)]])]

/-!
## Python item access, modelled with `Except` for `KeyError`/`TypeError`
-/

/-- Python `d[k1][k2] = v` on nested dicts. -/
def pySetItem2 (kvs : List (String × Json)) (k1 k2 : String) (v : Json) :
    Except String (List (String × Json)) :=
  match lookupKey kvs k1 with
  | some (.obj inner) => .ok (dictSet kvs k1 (.obj (dictSet inner k2 v)))
  | some _ => .error "TypeError: not subscriptable"
  | none => .error "KeyError"

/-- Python `d[k1][k2]` on nested dicts. -/
def pyGetItem2 (kvs : List (String × Json)) (k1 k2 : String) :
    Except String Json :=
  match lookupKey kvs k1 with
  | some (.obj inner) =>
      match lookupKey inner k2 with
      | some v => .ok v
      | none => .error "KeyError"
  | some _ => .error "TypeError: not subscriptable"
  | none => .error "KeyError"

/-- Python `resp["choices"][0][fld] = v`. -/
def pySetChoice0 (kvs : List (String × Json)) (fld : String) (v : Json) :
    Except String (List (String × Json)) :=
  match lookupKey kvs "choices" with
  | some (.arr (.obj ce :: cs)) =>
      .ok (dictSet kvs "choices" (.arr (Json.obj (dictSet ce fld v) :: cs)))
  | some (.arr []) => .error "IndexError"
  | some (.arr _) => .error "TypeError: not subscriptable"
  | some _ => .error "TypeError: not subscriptable"
  | none => .error "KeyError"

/-- Python `resp["choices"][0][slot][fld] = v` (`slot` is `"message"` or
`"delta"`). -/
def pySetChoice0Nested (kvs : List (String × Json)) (slot fld : String)
    (v : Json) : Except String (List (String × Json)) :=
  match lookupKey kvs "choices" with
  | some (.arr (.obj ce :: cs)) =>
      match lookupKey ce slot with
      | some (.obj inner) =>
          .ok (dictSet kvs "choices"
            (.arr (Json.obj (dictSet ce slot (.obj (dictSet inner fld v))) :: cs)))
      | some _ => .error "TypeError: not subscriptable"
      | none => .error "KeyError"
  | some (.arr []) => .error "IndexError"
  | some (.arr _) => .error "TypeError: not subscriptable"
  | some _ => .error "TypeError: not subscriptable"
  | none => .error "KeyError"

/-- Python `a + b` where the composer adds usage counters (they are always
ints at those program points). -/
def pyAdd : Json → Json → Except String Json
  | .num a, .num b => .ok (.num (a + b))
  | _, _ => .error "TypeError: unsupported operand"

/-!
## Prompt-token accounting (`_create_response`, lines 242-244)

`prompt_tokens = sum(len(msg.get("content", "").split()) for msg in messages
if isinstance(msg, dict))`.
-/

/-- Python iteration `for msg in x`: lists yield their elements, dicts yield
their keys, strings yield their 1-character substrings; other values raise
`TypeError`. -/
def iterElems : Json → Except String (List Json)
  | .arr xs => .ok xs
  | .obj kvs => .ok (kvs.map fun kv => Json.str kv.1)
  | .str s => .ok (s.data.map fun c => Json.str (String.mk [c]))
  | _ => .error "TypeError: not iterable"

/-- Token contribution of one element of `messages`: non-dict elements are
filtered out by `if isinstance(msg, dict)` (they contribute 0 to the sum); a
dict without `"content"` defaults to `""` (0 tokens); a non-string content
raises `AttributeError` at `.split()`. -/
def msgTokens : Json → Except String Nat
  | .obj kvs =>
      match lookupKey kvs "content" with
      | none => .ok 0
      | some (.str s) => .ok (countTokens s)
      | some _ => .error "AttributeError: no attribute split"
  | _ => .ok 0

/-- The lazy left-to-right `sum(...)` over the message elements: the first
failing element raises, later elements are not reached. -/
def sumMsgTokens : List Json → Except String Nat
  | [] => .ok 0
  | m :: rest => do
      let n ← msgTokens m
      let s ← sumMsgTokens rest
      return n + s

/-- `sum(len(msg.get("content", "").split()) ...)` over
`request_data.get("messages", [])`. -/
def promptTokens (request_data : List (String × Json)) : Except String Nat := do
  let msgs ← iterElems (pyDictGet request_data "messages" (.arr []))
  sumMsgTokens msgs

/-!
## `_create_response` — the Response Composer

Returns `(warnings, envelope)`; warnings model the `logger.warning` calls
(their presence and order, not their exact text).  The unsupported-scalar
branch stringifies the value and re-runs the composer, exactly as the
Python code recurses with `str(result)`.
-/

/-- The `result.items()` update loop of the dict branch (shared with
`_process_stream_chunk`): apply `_update_json_with_key` per key in order,
warning on each unmatched key. -/
def applyUpdates : List (String × Json) → List (String × Json) →
    List String × List (String × Json)
  | [], resp => ([], resp)
  | (k, v) :: rest, resp =>
      match update_json_with_key resp k v with
      | (true, resp2) => applyUpdates rest resp2
      | (false, resp2) =>
          let r := applyUpdates rest resp2
          (("could not find a matching response key for return value " ++ k) :: r.1,
           r.2)

/-- The string-return tail of `_create_response` (lines 252-257), applied to
the prompt-stamped template: write the text into the message content slot,
set `completion_tokens`, read the two counters back and store their sum as
`total_tokens`. -/
def compose_string_case (response : List (String × Json)) (s : String) :
    Except String (List (String × Json)) := do
  let response ← pySetChoice0Nested response "message" "content" (.str s)
  let response ← pySetItem2 response "usage" "completion_tokens"
    (.num (countTokens s))
  let p ← pyGetItem2 response "usage" "prompt_tokens"
  let c ← pyGetItem2 response "usage" "completion_tokens"
  let t ← pyAdd p c
  pySetItem2 response "usage" "total_tokens" t

def create_response (request_data : List (String × Json)) (result : Json)
    (idv : String) (created : Int) (model_name : Json) :
    Except String (List String × List (String × Json)) := do
  let response := get_default_response idv created model_name
  let pt ← promptTokens request_data
  let response ← pySetItem2 response "usage" "prompt_tokens" (.num pt)
  match result with
  | .null =>
      return (["returned None, using default response"], response)
  | .str s => do
      let r ← compose_string_case response s
      return ([], r)
  | .arr _ =>
      return (["list return values not supported, using default response"],
              response)
  | .obj items =>
      let r := applyUpdates items response
      return (r.1, r.2)
  | other => do
      -- `_create_response` recurses with `str(result)` here; re-running the
      -- composer rebuilds the same template and recomputes the same prompt
      -- count, so the recursive call is exactly the string case on the
      -- prompt-stamped template
      let r ← compose_string_case response (pyStr other)
      return (["unsupported return value type, converting to string"], r)

/-!
## `_create_stream_response` / `_process_stream_chunk` — the Streaming Composer

Frames are modelled as their JSON payloads, i.e. the dict serialized into each
`data: <json>\n\n` event (`json.dumps` is an injective serialization, so every
claim about frames is stated on payloads).  The chunk source of a generator
is a list of `Except String Json`: `.ok c` is a successfully produced chunk,
`.error e` is the iteration raising; after a raise Python stops iterating, so
anything after the first `.error` is unreachable.
-/

def process_stream_chunk (chunk : Json) (response_id : String) (idv : String)
    (created : Int) (model_name : Json) :
    Except String (List String × List (String × Json)) := do
  let response := get_stream_response idv created model_name
  let response := dictSet response "id" (.str response_id)
  match chunk with
  | .null => return ([], response)
  | .str s => do
      let response ← pySetChoice0Nested response "delta" "content" (.str s)
      return ([], response)
  | .obj items =>
      let r := applyUpdates items response
      return (r.1, r.2)
  | other => do
      let response ← pySetChoice0Nested response "delta" "content"
        (.str (pyStr other))
      return (["unsupported stream chunk type, converting to string"], response)

/-- The terminal error event of the `except` block: stream template, shared
id, `"Error: " + str(e)` in the delta content, `finish_reason = "error"`. -/
def error_chunk (e : String) (response_id : String) (idv : String)
    (created : Int) (model_name : Json) :
    Except String (List (String × Json)) := do
  let c := get_stream_response idv created model_name
  let c := dictSet c "id" (.str response_id)
  let c ← pySetChoice0Nested c "delta" "content" (.str ("Error: " ++ e))
  let c ← pySetChoice0 c "finish_reason" (.str "error")
  return c

/-- The frame sequence produced by `stream_generator()`: one frame per chunk
until the source raises; the first raise (whether from the source or from
processing a chunk) yields exactly one terminal error frame and ends the
sequence.  A failure while building the error frame itself would kill the
generator with no further frames (unreachable on the real template). -/
def stream_generator (source : List (Except String Json)) (response_id : String)
    (idv : String) (created : Int) (model_name : Json) :
    List (List (String × Json)) :=
  match source with
  | [] => []
  | .ok c :: rest =>
      match process_stream_chunk c response_id idv created model_name with
      | .ok r => r.2 :: stream_generator rest response_id idv created model_name
      | .error e =>
          match error_chunk e response_id idv created model_name with
          | .ok fr => [fr]
          | .error _ => []
  | .error e :: _ =>
      match error_chunk e response_id idv created model_name with
      | .ok fr => [fr]
      | .error _ => []

/-- A user function's return value as seen by the dispatch wrapper: a plain
value, or a (sync or async) generator producing chunks. -/
inductive FuncResult where
  | val : Json → FuncResult
  | gen : List (Except String Json) → FuncResult

/-- `_create_stream_response`: a generator streams chunk by chunk; a
non-generator result is warned about and emitted as a single chunk. -/
def create_stream_response (result : FuncResult) (response_id : String)
    (idv : String) (created : Int) (model_name : Json) :
    List (List (String × Json)) :=
  match result with
  | .gen source => stream_generator source response_id idv created model_name
  | .val v =>
      match process_stream_chunk v response_id idv created model_name with
      | .ok r => [r.2]
      | .error e =>
          match error_chunk e response_id idv created model_name with
          | .ok fr => [fr]
          | .error _ => []

/-!
## `ServiceRegistry` and the dispatch `wrapper`
-/

structure ServiceConfig where
  map_request : Bool
  map_response : Bool
  supports_streaming : Bool
deriving DecidableEq

/-- A user-supplied function: its name, declared parameter names (in
signature order), and its behavior on a params dict (`.error` = it raises). -/
structure UserFunc where
  fname : String
  paramNames : List String
  call : List (String × Json) → Except String FuncResult

/-- The dispatch wrapper's possible results: a plain JSON payload, the raw
return value passed through (`map_response=False`), or a streaming response
(its frame payloads). -/
inductive DispatchResult where
  | json : List (String × Json) → DispatchResult
  | raw : FuncResult → DispatchResult
  | stream : List (List (String × Json)) → DispatchResult

/-- The structured client error for `stream: true` against a non-streaming
handler (decorators.py lines 43-50). -/
def streaming_error_payload (model_name : String) : List (String × Json) :=
  [("error", .obj [
     ("message", .str ("Model '" ++ model_name ++
        "' does not support streaming responses")),
     ("type", .str "invalid_request_error"),
     ("param", .str "stream"),
     ("code", .str "streaming_not_supported")])]

/-- The `async def wrapper(request_data)` closure built by
`ServiceRegistry.register`.  `idv`, `created` and `response_id` stand for the
fresh uuid/timestamp draws of the templates and of the shared stream id. -/
def wrapper (model_name : String) (cfg : ServiceConfig) (f : UserFunc)
    (idv : String) (created : Int) (response_id : String)
    (request_data : List (String × Json)) : Except String DispatchResult := do
  let stream := truthy (pyDictGet request_data "stream" (.bool false))
  if stream && !cfg.supports_streaming && cfg.map_response then
    return .json (streaming_error_payload model_name)
  else
    let params ←
      if cfg.map_request then
        pure (map_request_to_params f.paramNames request_data).1
      else
        match f.paramNames with
        | [] => Except.error ("ValueError: Function '" ++ f.fname ++
            "' must have at least one parameter to receive the request")
        | p :: _ => pure [(p, Json.obj request_data)]
    let result ← f.call params
    if cfg.map_response then
      let mn := pyDictGet request_data "model" (.str "EasyMaaS")
      let stream2 := truthy (pyDictGet request_data "stream" (.bool false))
      if stream2 && cfg.supports_streaming then
        return .stream (create_stream_response result response_id idv created mn)
      else
        match result with
        | .val v => do
            let r ← create_response request_data v idv created mn
            return .json r.2
        | .gen _ => do
            -- a generator object reaching `_create_response` hits its
            -- stringify branch as `str(<generator ...>)`
            let r ← create_response request_data
              (.str "<generator object>") idv created mn
            return .json r.2
    else
      return .raw result

/-- A registered handler: the data captured by the `wrapper` closure stored
in `ServiceRegistry._services`. -/
structure Handler where
  model_name : String
  cfg : ServiceConfig
  func : UserFunc

/-- Invoke a registered handler on a request body. -/
def Handler.run (h : Handler) (idv : String) (created : Int)
    (response_id : String) (request_data : List (String × Json)) :
    Except String DispatchResult :=
  wrapper h.model_name h.cfg h.func idv created response_id request_data

/-- The class-level state of `ServiceRegistry`: `_services` and
`_service_configs`, both insertion-ordered dicts. -/
structure RegistryState where
  services : List (String × Handler)
  configs : List (String × ServiceConfig)

def RegistryState.empty : RegistryState := ⟨[], []⟩

/-- `ServiceRegistry.register`: store the configuration and the bound wrapper
under `model_name`, overwriting any prior entry for that name. -/
def register (st : RegistryState) (model_name : String) (f : UserFunc)
    (map_request map_response supports_streaming : Bool) : RegistryState :=
  let cfg : ServiceConfig := ⟨map_request, map_response, supports_streaming⟩
  { configs := dictSet st.configs model_name cfg,
    services := dictSet st.services model_name ⟨model_name, cfg, f⟩ }

/-- `ServiceRegistry.get_service`: `cls._services.get(model_name)`. -/
def get_service (st : RegistryState) (model_name : String) : Option Handler :=
  lookupKey st.services model_name

/-- `ServiceRegistry.get_service_config`: `cls._service_configs.get(model_name,
{})`; `none` models the empty-dict default. -/
def get_service_config (st : RegistryState) (model_name : String) :
    Option ServiceConfig :=
  lookupKey st.configs model_name

/-- `ServiceRegistry.list_services`. -/
def list_services (st : RegistryState) : List String :=
  st.services.map Prod.fst

/-!
## Predicates and auxiliary notions used by the claims
-/

/-- One element of `body.messages` is safe for the prompt-token computation:
it is not a dict (skipped), lacks `"content"` (defaults to `""`), or maps
`"content"` to a string. -/
def contentOk : Json → Bool
  | .obj kvs =>
      match lookupKey kvs "content" with
      | none => true
      | some (.str _) => true
      | some _ => false
  | _ => true

/-- The request body's `messages` entry is absent or is a list all of whose
elements are `contentOk`. -/
def messagesWF (body : List (String × Json)) : Bool :=
  match lookupKey body "messages" with
  | none => true
  | some (.arr msgs) => msgs.all contentOk
  | some _ => false

/-- A chunk whose frame keeps the minted response identifier: any non-dict
chunk, or a dict chunk without a top-level `"id"` key (a dict chunk with one
overwrites the frame's identifier through the write-path merge). -/
def chunkKeepsId : Json → Bool
  | .obj kvs => !containsKey kvs "id"
  | _ => true

/-- A sequence of `ServiceRegistry.register` calls
`(model_name, func, map_request, map_response, supports_streaming)` applied
in order. -/
def applyRegistrations :
    List (String × UserFunc × Bool × Bool × Bool) → RegistryState → RegistryState
  | [], st => st
  | (n, f, mr, mp, ss) :: rest, st =>
      applyRegistrations rest (register st n f mr mp ss)

/-!
## Paths: addressing one slot of a JSON structure

Used to state that the write path modifies exactly one slot.  A path enters a
dict through a named key and a list through its last element; `getAt` reads
the value at a path, `setAt` replaces it (returning `none` if the path does
not exist in the structure).
-/

inductive PathStep where
  | field : String → PathStep
  | last : PathStep
deriving DecidableEq

/-- Replace the last element of a list. -/
def setLast : List Json → Json → List Json
  | [], _ => []
  | [_], v => [v]
  | x :: y :: rest, v => x :: setLast (y :: rest) v

def getAt : Json → List PathStep → Option Json
  | j, [] => some j
  | .obj kvs, .field k :: p =>
      match lookupKey kvs k with
      | some v => getAt v p
      | none => none
  | .arr xs, .last :: p =>
      match xs.getLast? with
      | some x => getAt x p
      | none => none
  | _, _ :: _ => none

def setAt : Json → List PathStep → Json → Option Json
  | _, [], v => some v
  | .obj kvs, .field k :: p, v =>
      match lookupKey kvs k with
      | some w =>
          match setAt w p v with
          | some w2 => some (.obj (dictSet kvs k w2))
          | none => none
      | none => none
  | .arr xs, .last :: p, v =>
      match xs.getLast? with
      | some x =>
          match setAt x p v with
          | some x2 => some (.arr (setLast xs x2))
          | none => none
      | none => none
  | _, _ :: _, _ => none

/-- `pathStartsWith q p`: `q` extends (or equals) `p`. -/
def pathStartsWith : List PathStep → List PathStep → Bool
  | _, [] => true
  | [], _ :: _ => false
  | s :: q, t :: p => s = t && pathStartsWith q p

mutual

/-- Modelled from the claim's traversal description (first match in
depth-first order, the current object's own keys before its values, lists
entered only through a last element that is a dict): the path of the slot the
write path should modify.  Spec-side definition, to be compared with
`update_json_with_key`. -/
def findWritePath (kvs : List (String × Json)) (key : String) :
    Option (List PathStep) :=
  if containsKey kvs key then some [.field key]
  else findWritePathEntries kvs key

def findWritePathEntries : List (String × Json) → String →
    Option (List PathStep)
  | [], _ => none
  | (k, v) :: rest, key =>
      match v with
      | .obj inner =>
          match findWritePath inner key with
          | some p => some (.field k :: p)
          | none => findWritePathEntries rest key
      | .arr xs =>
          match findWritePathLast xs key with
          | some tail => some (.field k :: tail)
          | none => findWritePathEntries rest key
      | _ => findWritePathEntries rest key

def findWritePathLast : List Json → String → Option (List PathStep)
  | [], _ => none
  | [x], key =>
      match x with
      | .obj inner =>
          match findWritePath inner key with
          | some p => some (.last :: p)
          | none => none
      | _ => none
  | _ :: y :: rest, key => findWritePathLast (y :: rest) key

end

mutual

/-- Well-formed JSON: every dict (at any depth) has pairwise distinct keys,
as Python dicts do. -/
def wfJson : Json → Bool
  | .null => true
  | .bool _ => true
  | .num _ => true
  | .str _ => true
  | .arr xs => wfList xs
  | .obj kvs => wfEntries kvs

def wfList : List Json → Bool
  | [] => true
  | x :: rest => wfJson x && wfList rest

def wfEntries : List (String × Json) → Bool
  | [] => true
  | (k, v) :: rest => !containsKey rest k && wfJson v && wfEntries rest

end

/-- The envelope produced by the string-return path: the text in the single
message-content slot, `completion_tokens` = its whitespace-token count,
`prompt_tokens` = the computed prompt count `p`, and
`total_tokens = p + completion_tokens`. -/
def string_envelope (idv : String) (created : Int) (mn : Json) (p : Nat)
    (s : String) : List (String × Json) :=
  [("id", .str idv),
   ("object", .str "chat.completion"),
   ("created", .num created),
   ("model", mn),
   ("choices", .arr [.obj [
      ("index", .num 0),
      ("message", .obj [("role", .str "assistant"), ("content", .str s)]),
      ("finish_reason", .str "stop")]]),
   ("usage", .obj [("prompt_tokens", .num p),
                   ("completion_tokens", .num (countTokens s)),
                   ("total_tokens", .num (p + countTokens s))])]

/-- The default envelope template after the composer stamps the computed
prompt-token count into it (the state returned by the `None` and list
branches). -/
def default_with_prompt (idv : String) (created : Int) (mn : Json) (p : Nat) :
    List (String × Json) :=
  [("id", .str idv),
   ("object", .str "chat.completion"),
   ("created", .num created),
   ("model", mn),
   ("choices", .arr [.obj [
      ("index", .num 0),
      ("message", .obj [("role", .str "assistant"),
                        ("content", .str "Hello from EasyMaaS")]),
      ("finish_reason", .str "stop")]]),
   ("usage", .obj [("prompt_tokens", .num p),
                   ("completion_tokens", .num 0),
                   ("total_tokens", .num 0)])]

/-- Read a usage counter out of a composer result. -/
def usage_field (r : Except String (List String × List (String × Json)))
    (fld : String) : Except String Json :=
  match r with
  | .ok x => pyGetItem2 x.2 "usage" fld
  | .error e => .error e

/-- Return values routed (directly or after stringification) through the
string case of `_create_response`. -/
def isStringish : Json → Bool
  | .str _ => true
  | .bool _ => true
  | .num _ => true
  | _ => false

/-- Whether an `Except` computation returned a value. -/
def isOkE {ε α : Type} : Except ε α → Bool
  | .ok _ => true
  | .error _ => false

/-- The terminal error frame of a failed stream: stream template with the
shared id, `"Error: " + str(e)` in the delta content and
`finish_reason = "error"` (the value `error_chunk` computes). -/
def err_frame (e rid : String) (created : Int) (mn : Json) :
    List (String × Json) :=
  [("id", .str rid),
   ("object", .str "chat.completion.chunk"),
   ("created", .num created),
   ("model", mn),
   ("choices", .arr [.obj [
      ("index", .num 0),
      ("delta", .obj [("role", .str "assistant"),
                      ("content", .str ("Error: " ++ e))]),
      ("finish_reason", .str "error")]])]

/-- Agreement of `update_json_with_key` with the claim-side traversal
`findWritePath`: no path means failure with the structure unchanged; a path
`p` means success, with the result being exactly the structure with the slot
at `p` replaced. -/
def UpdateTopSpec (kvs : List (String × Json)) (key : String) (nv : Json) :
    Prop :=
  (findWritePath kvs key = none →
    update_json_with_key kvs key nv = (false, kvs)) ∧
  (∀ p, findWritePath kvs key = some p →
    (update_json_with_key kvs key nv).1 = true ∧
    (wfEntries kvs = true →
      setAt (.obj kvs) p nv =
        some (.obj (update_json_with_key kvs key nv).2)))

/-- `UpdateTopSpec` for the entry loop. -/
def UpdateEntriesSpec (kvs : List (String × Json)) (key : String) (nv : Json) :
    Prop :=
  (findWritePathEntries kvs key = none →
    updateEntries kvs key nv = (false, kvs)) ∧
  (∀ p, findWritePathEntries kvs key = some p →
    (updateEntries kvs key nv).1 = true ∧
    (wfEntries kvs = true →
      setAt (.obj kvs) p nv =
        some (.obj (updateEntries kvs key nv).2)))

/-- `UpdateTopSpec` for the last-element-of-a-list case. -/
def UpdateLastSpec (xs : List Json) (key : String) (nv : Json) : Prop :=
  (findWritePathLast xs key = none →
    updateLastElem xs key nv = (false, xs)) ∧
  (∀ p, findWritePathLast xs key = some p →
    (updateLastElem xs key nv).1 = true ∧
    (wfList xs = true →
      setAt (.arr xs) p nv =
        some (.arr (updateLastElem xs key nv).2)))

/-!
## General lemmas
-/

theorem create_response_null_eq (body : List (String × Json)) (idv : String)
    (created : Int) (mn : Json) (p : Nat) (h : promptTokens body = .ok p) :
    create_response body Json.null idv created mn =
      .ok (["returned None, using default response"],
           default_with_prompt idv created mn p) := by
  simp [create_response, h, get_default_response, pySetItem2, lookupKey,
        dictSet, default_with_prompt, Except.bind, bind, pure, Except.pure]

theorem create_response_arr_eq (body : List (String × Json)) (l : List Json)
    (idv : String) (created : Int) (mn : Json) (p : Nat)
    (h : promptTokens body = .ok p) :
    create_response body (Json.arr l) idv created mn =
      .ok (["list return values not supported, using default response"],
           default_with_prompt idv created mn p) := by
  simp [create_response, h, get_default_response, pySetItem2, lookupKey,
        dictSet, default_with_prompt, Except.bind, bind, pure, Except.pure]

theorem create_response_str_eq (body : List (String × Json)) (s : String)
    (idv : String) (created : Int) (mn : Json) (p : Nat)
    (h : promptTokens body = .ok p) :
    create_response body (Json.str s) idv created mn =
      .ok ([], string_envelope idv created mn p s) := by
  simp [create_response, h, get_default_response, pySetItem2, lookupKey,
        dictSet, compose_string_case, pySetChoice0Nested, pyGetItem2, pyAdd,
        string_envelope, Except.bind, bind, pure, Except.pure]

theorem create_response_bool_eq (body : List (String × Json)) (b : Bool)
    (idv : String) (created : Int) (mn : Json) (p : Nat)
    (h : promptTokens body = .ok p) :
    create_response body (Json.bool b) idv created mn =
      .ok (["unsupported return value type, converting to string"],
           string_envelope idv created mn p (pyStr (Json.bool b))) := by
  simp [create_response, h, get_default_response, pySetItem2, lookupKey,
        dictSet, compose_string_case, pySetChoice0Nested, pyGetItem2, pyAdd,
        string_envelope, Except.bind, bind, pure, Except.pure]

theorem create_response_num_eq (body : List (String × Json)) (n : Int)
    (idv : String) (created : Int) (mn : Json) (p : Nat)
    (h : promptTokens body = .ok p) :
    create_response body (Json.num n) idv created mn =
      .ok (["unsupported return value type, converting to string"],
           string_envelope idv created mn p (pyStr (Json.num n))) := by
  simp [create_response, h, get_default_response, pySetItem2, lookupKey,
        dictSet, compose_string_case, pySetChoice0Nested, pyGetItem2, pyAdd,
        string_envelope, Except.bind, bind, pure, Except.pure]

theorem create_response_obj_eq (body : List (String × Json))
    (items : List (String × Json)) (idv : String) (created : Int) (mn : Json)
    (p : Nat) (h : promptTokens body = .ok p) :
    create_response body (Json.obj items) idv created mn =
      .ok (applyUpdates items (default_with_prompt idv created mn p)) := by
  simp [create_response, h, get_default_response, pySetItem2, lookupKey,
        dictSet, default_with_prompt, Except.bind, bind, pure, Except.pure]

theorem lookupKey_dictSet_self {α : Type} (kvs : List (String × α)) (k : String)
    (v : α) : lookupKey (dictSet kvs k v) k = some v := by
  induction kvs with
  | nil => simp [dictSet, lookupKey]
  | cons hd tl ih =>
      obtain ⟨k0, v0⟩ := hd
      by_cases h : k0 = k <;> simp [dictSet, lookupKey, h, ih]

theorem lookupKey_dictSet_ne {α : Type} (kvs : List (String × α)) (k k' : String)
    (v : α) (h : k' ≠ k) : lookupKey (dictSet kvs k v) k' = lookupKey kvs k' := by
  have hk : ¬ (k = k') := fun hh => h hh.symm
  induction kvs with
  | nil => simp [dictSet, lookupKey, hk]
  | cons hd tl ih =>
      obtain ⟨k0, v0⟩ := hd
      by_cases h0 : k0 = k
      · subst h0
        simp [dictSet, lookupKey, hk]
      · simp [dictSet, lookupKey, h0, ih]

/-!
## Claim C1 — parameter literally named "request"

The code has no special case for a parameter named `"request"`:
`_map_request_to_params` resolves every declared parameter, `"request"`
included, through `_find_key_in_json`.  The claim is refuted by a body with
no `"request"` key, whose `"request"` parameter is bound to `None`, not to
the body.
-/

/-- C1, counterexample: for the function parameter list `["request"]` and the
body `{"x": 1}`, the Parameter Mapper binds `"request"` to `None` (after a
failed key lookup), not to the whole body as the claim states. -/
theorem c1_counterexample :
    (map_request_to_params ["request"] [("x", Json.num 1)]).1 =
      [("request", Json.null)] ∧
    ¬ ((map_request_to_params ["request"] [("x", Json.num 1)]).1 =
        [("request", Json.obj [("x", Json.num 1)])]) ∧
    (map_request_to_params ["request"] [("x", Json.num 1)]).2 = ["request"] := by
  refine ⟨rfl, ?_, rfl⟩
  intro h
  rw [show (map_request_to_params ["request"] [("x", Json.num 1)]).1 =
      [("request", Json.null)] from rfl] at h
  simp at h

/-- C1 (amended): every declared parameter — one literally named `"request"`
included — is resolved through the recursive key search; a hit binds the
found value, a miss binds `None` and records the parameter as unmapped. -/
theorem c1_amended_all_params_resolved_by_search (names : List String)
    (body : List (String × Json)) :
    map_request_to_params names body =
      (names.map fun n => (n, (find_key_in_json (.obj body) n).getD Json.null),
       names.filter fun n => (find_key_in_json (.obj body) n).isNone) := by
  induction names with
  | nil => rfl
  | cons n rest ih =>
      cases h : find_key_in_json (.obj body) n <;>
        simp [map_request_to_params, ih, h]

/-!
## Claim C2 — streaming request against a non-streaming handler
-/

/-- C2: a request with `stream: true` dispatched through a wrapper whose
configuration has `supports_streaming = false` and `map_response = true`
returns the structured `streaming_not_supported` error payload; the result is
the same for every underlying function, so the function is never invoked.
The payload carries type `invalid_request_error`, param `stream` and code
`streaming_not_supported`. -/
theorem c2_streaming_rejected (model_name : String) (cfg : ServiceConfig)
    (f g : UserFunc) (idv : String) (created : Int) (rid : String)
    (body : List (String × Json))
    (hstream : lookupKey body "stream" = some (Json.bool true))
    (hs : cfg.supports_streaming = false) (hm : cfg.map_response = true) :
    wrapper model_name cfg f idv created rid body =
      .ok (.json (streaming_error_payload model_name)) ∧
    wrapper model_name cfg f idv created rid body =
      wrapper model_name cfg g idv created rid body ∧
    pyGetItem2 (streaming_error_payload model_name) "error" "type" =
      .ok (.str "invalid_request_error") ∧
    pyGetItem2 (streaming_error_payload model_name) "error" "param" =
      .ok (.str "stream") ∧
    pyGetItem2 (streaming_error_payload model_name) "error" "code" =
      .ok (.str "streaming_not_supported") := by
  have hw : ∀ h : UserFunc, wrapper model_name cfg h idv created rid body =
      .ok (.json (streaming_error_payload model_name)) := by
    intro h
    simp [wrapper, pyDictGet, hstream, truthy, hs, hm, pure, Except.pure]
  exact ⟨hw f, (hw f).trans (hw g).symm, rfl, rfl, rfl⟩

/-- C2, witness: a concrete streaming request against a concrete
non-streaming handler. -/
theorem c2_witness :
    wrapper "m" ⟨true, true, false⟩
      ⟨"f", ["x"], fun _ => .ok (.val (Json.str "hi"))⟩ "id0" 0 "rid"
      [("stream", Json.bool true)] =
      .ok (.json (streaming_error_payload "m")) :=
  (c2_streaming_rejected "m" ⟨true, true, false⟩
    ⟨"f", ["x"], fun _ => .ok (.val (Json.str "hi"))⟩
    ⟨"g", ["x"], fun _ => .ok (.val Json.null)⟩ "id0" 0 "rid"
    [("stream", Json.bool true)] rfl rfl rfl).1

/-!
## Claim C3 — string returns
-/

/-- C3: a string return value is written into the envelope's single
message-content slot; `completion_tokens` is its whitespace-token count,
`prompt_tokens` is the computed prompt sum `p`, and
`total_tokens = p + completion_tokens` (see `string_envelope`). -/
theorem c3_string_return_composition (body : List (String × Json)) (s : String)
    (idv : String) (created : Int) (mn : Json) (p : Nat)
    (h : promptTokens body = .ok p) :
    create_response body (Json.str s) idv created mn =
      .ok ([], string_envelope idv created mn p s) ∧
    pyGetItem2 (string_envelope idv created mn p s) "usage" "total_tokens" =
      .ok (.num (p + countTokens s)) ∧
    pySetChoice0Nested (default_with_prompt idv created mn p) "message"
      "content" (.str s) =
      .ok (dictSet (string_envelope idv created mn p s) "usage"
        (.obj [("prompt_tokens", .num p), ("completion_tokens", .num 0),
               ("total_tokens", .num 0)])) := by
  refine ⟨create_response_str_eq body s idv created mn p h, rfl, ?_⟩
  simp [pySetChoice0Nested, default_with_prompt, string_envelope, lookupKey,
        dictSet]

/-- C3, witness: a function returning `"hi"` for a request with one user
message `"hello"` yields `completion_tokens = 1`, `prompt_tokens = 1`,
`total_tokens = 2`. -/
theorem c3_witness :
    promptTokens [("messages", Json.arr
      [Json.obj [("role", Json.str "user"), ("content", Json.str "hello")]])] =
      .ok 1 ∧
    create_response
      [("messages", Json.arr
        [Json.obj [("role", Json.str "user"), ("content", Json.str "hello")]])]
      (Json.str "hi") "id0" 0 (Json.str "m") =
      .ok ([],
        [("id", Json.str "id0"),
         ("object", Json.str "chat.completion"),
         ("created", Json.num 0),
         ("model", Json.str "m"),
         ("choices", Json.arr [Json.obj [
            ("index", Json.num 0),
            ("message", Json.obj [("role", Json.str "assistant"),
                                  ("content", Json.str "hi")]),
            ("finish_reason", Json.str "stop")]]),
         ("usage", Json.obj [("prompt_tokens", Json.num 1),
                             ("completion_tokens", Json.num 1),
                             ("total_tokens", Json.num 2)])]) := by
  have h := c3_string_return_composition
    [("messages", Json.arr
      [Json.obj [("role", Json.str "user"), ("content", Json.str "hello")]])]
    "hi" "id0" 0 (Json.str "m") 1 rfl
  exact ⟨rfl, h.1⟩

/-!
## Claim C6 — None and list returns

Both branches return the default template *with the computed prompt-token
count already stamped into it* (lines 242-244 run before the branch), so the
returned envelope is not the untouched default template whenever the request
carries a non-trivial message.
-/

/-- C6, counterexample: for a request with one message `"hello"`, a `None`
return yields an envelope whose `usage.prompt_tokens` is 1, which differs
from the untouched default template (`prompt_tokens = 0`). -/
theorem c6_counterexample :
    create_response [("messages", Json.arr [Json.obj [("content", Json.str "hello")]])]
      Json.null "id0" 0 (Json.str "m") =
      .ok (["returned None, using default response"],
           default_with_prompt "id0" 0 (Json.str "m") 1) ∧
    default_with_prompt "id0" 0 (Json.str "m") 1 ≠
      get_default_response "id0" 0 (Json.str "m") := by
  refine ⟨rfl, ?_⟩
  simp [default_with_prompt, get_default_response]

/-- C6 (amended): a `None` return and a list return each yield exactly one
diagnostic and the default template with only `usage.prompt_tokens`
overwritten by the computed prompt count (untouched only when that count is
0). -/
theorem c6_amended_default_template_with_prompt (body : List (String × Json))
    (l : List Json) (idv : String) (created : Int) (mn : Json) (p : Nat)
    (h : promptTokens body = .ok p) :
    create_response body Json.null idv created mn =
      .ok (["returned None, using default response"],
           default_with_prompt idv created mn p) ∧
    create_response body (Json.arr l) idv created mn =
      .ok (["list return values not supported, using default response"],
           default_with_prompt idv created mn p) ∧
    pySetItem2 (get_default_response idv created mn) "usage" "prompt_tokens"
      (.num p) = .ok (default_with_prompt idv created mn p) := by
  refine ⟨create_response_null_eq body idv created mn p h,
          create_response_arr_eq body l idv created mn p h, ?_⟩
  simp [pySetItem2, get_default_response, default_with_prompt, lookupKey,
        dictSet]

/-- C6, witness: concrete instance of the amended claim. -/
theorem c6_witness :
    create_response [("messages", Json.arr [Json.obj [("content", Json.str "hello")]])]
      (Json.arr [Json.num 1, Json.num 2, Json.num 3]) "id0" 0 (Json.str "m") =
      .ok (["list return values not supported, using default response"],
           default_with_prompt "id0" 0 (Json.str "m") 1) :=
  (c6_amended_default_template_with_prompt
    [("messages", Json.arr [Json.obj [("content", Json.str "hello")]])]
    [Json.num 1, Json.num 2, Json.num 3] "id0" 0 (Json.str "m") 1 rfl).2.1

/-!
## Claim C8 — the token-count invariant
-/

/-- C8, counterexample: a `None` return for a request with one message
`"hello"` yields `prompt_tokens = 1`, `completion_tokens = 0`,
`total_tokens = 0`, violating `total = prompt + completion`. -/
theorem c8_counterexample :
    usage_field (create_response
      [("messages", Json.arr [Json.obj [("content", Json.str "hello")]])]
      Json.null "id0" 0 (Json.str "m")) "prompt_tokens" = .ok (.num 1) ∧
    usage_field (create_response
      [("messages", Json.arr [Json.obj [("content", Json.str "hello")]])]
      Json.null "id0" 0 (Json.str "m")) "completion_tokens" = .ok (.num 0) ∧
    usage_field (create_response
      [("messages", Json.arr [Json.obj [("content", Json.str "hello")]])]
      Json.null "id0" 0 (Json.str "m")) "total_tokens" = .ok (.num 0) ∧
    (0 : Int) ≠ 1 + 0 := by
  refine ⟨rfl, rfl, rfl, by decide⟩

/-- C8 (amended): every envelope returned for a return value routed through
the string case (a string, or a bool/number stringified) satisfies
`usage.total_tokens = usage.prompt_tokens + usage.completion_tokens`; the
`None`/list branches leave `completion_tokens` and `total_tokens` at 0 while
stamping the computed `prompt_tokens`, so the invariant can fail there. -/
theorem c8_amended_invariant_for_string_returns (body : List (String × Json))
    (result : Json) (idv : String) (created : Int) (mn : Json)
    (ws : List String) (env : List (String × Json))
    (hres : isStringish result = true)
    (hcr : create_response body result idv created mn = .ok (ws, env)) :
    ∃ p c : Int,
      pyGetItem2 env "usage" "prompt_tokens" = .ok (.num p) ∧
      pyGetItem2 env "usage" "completion_tokens" = .ok (.num c) ∧
      pyGetItem2 env "usage" "total_tokens" = .ok (.num (p + c)) := by
  cases hp : promptTokens body with
  | error e =>
      rw [show create_response body result idv created mn = .error e by
        cases result <;> simp [create_response, hp, Except.bind, bind]] at hcr
      exact absurd hcr (by simp)
  | ok p =>
      cases result with
      | str s =>
          rw [create_response_str_eq body s idv created mn p hp] at hcr
          obtain ⟨-, henv⟩ := Prod.mk.injEq .. ▸ Except.ok.inj hcr
          subst henv
          exact ⟨p, countTokens s, rfl, rfl, by simp [pyGetItem2,
            string_envelope, lookupKey]⟩
      | bool b =>
          rw [create_response_bool_eq body b idv created mn p hp] at hcr
          obtain ⟨-, henv⟩ := Prod.mk.injEq .. ▸ Except.ok.inj hcr
          subst henv
          exact ⟨p, countTokens (pyStr (Json.bool b)), rfl, rfl,
            by simp [pyGetItem2, string_envelope, lookupKey]⟩
      | num n =>
          rw [create_response_num_eq body n idv created mn p hp] at hcr
          obtain ⟨-, henv⟩ := Prod.mk.injEq .. ▸ Except.ok.inj hcr
          subst henv
          exact ⟨p, countTokens (pyStr (Json.num n)), rfl, rfl,
            by simp [pyGetItem2, string_envelope, lookupKey]⟩
      | null => simp [isStringish] at hres
      | arr l => simp [isStringish] at hres
      | obj items => simp [isStringish] at hres

/-- C8, witness: the string-return round trip satisfies the invariant. -/
theorem c8_witness :
    isStringish (Json.str "hi") = true ∧
    ∃ p c : Int,
      pyGetItem2 (string_envelope "id0" 0 (Json.str "m") 1 "hi") "usage"
        "prompt_tokens" = .ok (.num p) ∧
      pyGetItem2 (string_envelope "id0" 0 (Json.str "m") 1 "hi") "usage"
        "completion_tokens" = .ok (.num c) ∧
      pyGetItem2 (string_envelope "id0" 0 (Json.str "m") 1 "hi") "usage"
        "total_tokens" = .ok (.num (p + c)) :=
  ⟨rfl, c8_amended_invariant_for_string_returns
    [("messages", Json.arr [Json.obj [("content", Json.str "hello")]])]
    (Json.str "hi") "id0" 0 (Json.str "m") []
    (string_envelope "id0" 0 (Json.str "m") 1 "hi") rfl rfl⟩

/-!
## Claim C9 — totality of the Response Composer
-/

theorem msgTokens_ok_of_contentOk (m : Json) (h : contentOk m = true) :
    ∃ n, msgTokens m = .ok n := by
  cases m with
  | obj kvs =>
      cases hl : lookupKey kvs "content" with
      | none => exact ⟨0, by simp [msgTokens, hl]⟩
      | some v =>
          cases v with
          | str s => exact ⟨countTokens s, by simp [msgTokens, hl]⟩
          | null => simp [contentOk, hl] at h
          | bool b => simp [contentOk, hl] at h
          | num n => simp [contentOk, hl] at h
          | arr xs => simp [contentOk, hl] at h
          | obj kvs2 => simp [contentOk, hl] at h
  | null => exact ⟨0, rfl⟩
  | bool b => exact ⟨0, rfl⟩
  | num n => exact ⟨0, rfl⟩
  | str s => exact ⟨0, rfl⟩
  | arr xs => exact ⟨0, rfl⟩

theorem sumMsgTokens_ok (msgs : List Json) (h : msgs.all contentOk = true) :
    ∃ n, sumMsgTokens msgs = .ok n := by
  induction msgs with
  | nil => exact ⟨0, rfl⟩
  | cons hd tl ih =>
      simp only [List.all_cons, Bool.and_eq_true] at h
      obtain ⟨n, hn⟩ := msgTokens_ok_of_contentOk hd h.1
      obtain ⟨s, hs⟩ := ih h.2
      exact ⟨n + s, by simp [sumMsgTokens, hn, hs, bind, Except.bind,
        pure, Except.pure]⟩

theorem promptTokens_ok_of_messagesWF (body : List (String × Json))
    (h : messagesWF body = true) : ∃ p, promptTokens body = .ok p := by
  unfold messagesWF at h
  cases hm : lookupKey body "messages" with
  | none =>
      exact ⟨0, by simp [promptTokens, pyDictGet, hm, iterElems, bind,
        Except.bind, pure, Except.pure, sumMsgTokens]⟩
  | some v =>
      rw [hm] at h
      cases v with
      | arr msgs =>
          obtain ⟨n, hn⟩ := sumMsgTokens_ok msgs h
          exact ⟨n, by simp [promptTokens, pyDictGet, hm, iterElems, hn,
            bind, Except.bind, pure, Except.pure]⟩
      | null => simp at h
      | bool b => simp at h
      | num n => simp at h
      | str s => simp at h
      | obj kvs => simp at h

/-- C9: the Response Composer returns an envelope for every return value
whenever each dict element of `body.messages` lacks `"content"` or maps it
to a string (non-dict elements are skipped); but a dict element whose
`"content"` is a list makes the prompt-token computation raise
`AttributeError`, and no envelope is returned. -/
theorem c9_composer_totality_and_content_failure :
    (∀ (body : List (String × Json)) (result : Json) (idv : String)
       (created : Int) (mn : Json), messagesWF body = true →
       isOkE (create_response body result idv created mn) = true) ∧
    create_response
      [("messages", Json.arr [Json.obj [("content", Json.arr [Json.num 1, Json.num 2])]])]
      (Json.str "hi") "id0" 0 (Json.str "m") =
      .error "AttributeError: no attribute split" := by
  constructor
  · intro body result idv created mn hwf
    obtain ⟨p, hp⟩ := promptTokens_ok_of_messagesWF body hwf
    cases result with
    | null => rw [create_response_null_eq body idv created mn p hp]; rfl
    | str s => rw [create_response_str_eq body s idv created mn p hp]; rfl
    | arr l => rw [create_response_arr_eq body l idv created mn p hp]; rfl
    | obj items => rw [create_response_obj_eq body items idv created mn p hp]; rfl
    | bool b => rw [create_response_bool_eq body b idv created mn p hp]; rfl
    | num n => rw [create_response_num_eq body n idv created mn p hp]; rfl
  · rfl

/-- C9, witness: a well-formed request body gives an envelope for an
arbitrary return value. -/
theorem c9_witness :
    isOkE (create_response
      [("messages", Json.arr [Json.obj [("role", Json.str "user"),
                                        ("content", Json.str "hello")]])]
      (Json.num 5) "id0" 0 (Json.str "m")) = true :=
  c9_composer_totality_and_content_failure.1
    [("messages", Json.arr [Json.obj [("role", Json.str "user"),
                                      ("content", Json.str "hello")]])]
    (Json.num 5) "id0" 0 (Json.str "m") rfl

/-!
## Claim C7 — registry overwrite semantics
-/

theorem mem_keys_dictSet {α : Type} (kvs : List (String × α)) (k x : String)
    (v : α) :
    (x ∈ (dictSet kvs k v).map Prod.fst) ↔ x ∈ kvs.map Prod.fst ∨ x = k := by
  induction kvs with
  | nil => simp [dictSet]
  | cons hd tl ih =>
      obtain ⟨k0, v0⟩ := hd
      by_cases h0 : k0 = k
      · subst h0
        simp [dictSet]
        tauto
      · simp [dictSet, h0, ih]
        tauto

theorem nodup_keys_dictSet {α : Type} (kvs : List (String × α)) (k : String)
    (v : α) (h : (kvs.map Prod.fst).Nodup) :
    ((dictSet kvs k v).map Prod.fst).Nodup := by
  induction kvs with
  | nil => simp [dictSet]
  | cons hd tl ih =>
      obtain ⟨k0, v0⟩ := hd
      simp only [List.map_cons, List.nodup_cons] at h
      by_cases h0 : k0 = k
      · subst h0
        rw [show dictSet ((k0, v0) :: tl) k0 v = (k0, v) :: tl from by
          simp [dictSet]]
        simp only [List.map_cons, List.nodup_cons]
        exact ⟨h.1, h.2⟩
      · rw [show dictSet ((k0, v0) :: tl) k v = (k0, v0) :: dictSet tl k v from by
          simp [dictSet, h0]]
        simp only [List.map_cons, List.nodup_cons]
        refine ⟨?_, ih h.2⟩
        intro hmem
        rcases (mem_keys_dictSet tl k k0 v).mp hmem with h1 | h1
        · exact h.1 h1
        · exact h0 h1

theorem get_service_applyRegistrations_none
    (ops : List (String × UserFunc × Bool × Bool × Bool)) (name : String)
    (st : RegistryState) (h0 : get_service st name = none)
    (h : ∀ op ∈ ops, op.1 ≠ name) :
    get_service (applyRegistrations ops st) name = none := by
  induction ops generalizing st with
  | nil => simpa [applyRegistrations] using h0
  | cons op rest ih =>
      obtain ⟨n, f, mr, mp, ss⟩ := op
      have hn : n ≠ name := h _ (List.mem_cons_self ..)
      have h0' : lookupKey st.services name = none := h0
      refine ih _ ?_ (fun o ho => h o (List.mem_cons_of_mem _ ho))
      show lookupKey (dictSet st.services n ⟨n, ⟨mr, mp, ss⟩, f⟩) name = none
      rw [lookupKey_dictSet_ne _ _ _ _ (Ne.symm hn)]
      exact h0'

/-- C7: registering twice under one model name leaves exactly the second
handler and configuration reachable via lookup; registration preserves
key uniqueness of the service table (a name maps to at most one handler);
and a name never registered (starting from the empty registry) looks up to
not-found. -/
theorem c7_registry_overwrite (st : RegistryState) (name : String)
    (f1 f2 : UserFunc) (mr1 mp1 ss1 mr2 mp2 ss2 : Bool)
    (ops : List (String × UserFunc × Bool × Bool × Bool)) (name2 : String)
    (hops : ∀ op ∈ ops, op.1 ≠ name2)
    (hnodup : (st.services.map Prod.fst).Nodup) :
    get_service (register (register st name f1 mr1 mp1 ss1) name f2 mr2 mp2 ss2)
        name = some ⟨name, ⟨mr2, mp2, ss2⟩, f2⟩ ∧
    get_service_config
        (register (register st name f1 mr1 mp1 ss1) name f2 mr2 mp2 ss2) name =
      some ⟨mr2, mp2, ss2⟩ ∧
    (((register st name f2 mr2 mp2 ss2).services.map Prod.fst)).Nodup ∧
    get_service (applyRegistrations ops RegistryState.empty) name2 = none := by
  refine ⟨?_, ?_, ?_, ?_⟩
  · exact lookupKey_dictSet_self ..
  · exact lookupKey_dictSet_self ..
  · exact nodup_keys_dictSet _ _ _ hnodup
  · exact get_service_applyRegistrations_none ops name2 RegistryState.empty rfl hops

/-- C7, witness: concrete double registration and a lookup of an
unregistered name. -/
theorem c7_witness :
    get_service
      (register
        (register RegistryState.empty "m"
          ⟨"f1", ["x"], fun _ => .ok (.val Json.null)⟩ false false false)
        "m" ⟨"f2", ["y"], fun _ => .ok (.val (Json.str "2"))⟩ true true true)
      "m" =
      some ⟨"m", ⟨true, true, true⟩,
            ⟨"f2", ["y"], fun _ => .ok (.val (Json.str "2"))⟩⟩ ∧
    get_service
      (applyRegistrations
        [("a", ⟨"f1", ["x"], fun _ => .ok (.val Json.null)⟩, false, false, false)]
        RegistryState.empty) "m" = none := by
  have h := c7_registry_overwrite RegistryState.empty "m"
    ⟨"f1", ["x"], fun _ => .ok (.val Json.null)⟩
    ⟨"f2", ["y"], fun _ => .ok (.val (Json.str "2"))⟩
    false false false true true true
    [("a", ⟨"f1", ["x"], fun _ => .ok (.val Json.null)⟩, false, false, false)]
    "m"
    (by
      intro op hop
      rcases List.mem_singleton.mp hop with rfl
      decide)
    (by simp [RegistryState.empty])
  exact ⟨h.1, h.2.2.2⟩

/-!
## Claim C4 — characterization of the read path
-/

theorem findInEntries_eq_findSome (kvs : List (String × Json)) (key : String) :
    findInEntries kvs key =
      kvs.findSome? fun kv => find_key_in_json kv.2 key := by
  induction kvs with
  | nil => simp [findInEntries]
  | cons hd tl ih =>
      obtain ⟨k, v⟩ := hd
      cases h : find_key_in_json v key <;>
        simp [findInEntries, List.findSome?_cons, h, ih]

theorem findInLastElem_eq (xs : List Json) (key : String) :
    findInLastElem xs key =
      match xs.getLast? with
      | some (Json.obj inner) => find_key_in_json (.obj inner) key
      | some _ => none
      | none => none := by
  induction xs with
  | nil => simp [findInLastElem]
  | cons x tl ih =>
      cases tl with
      | nil => cases x <;> simp [findInLastElem]
      | cons y rest =>
          rw [show findInLastElem (x :: y :: rest) key =
              findInLastElem (y :: rest) key from by
            simp [findInLastElem]]
          rw [ih, List.getLast?_cons_cons]

/-- C4: on a dict, a key present at the current level is returned
immediately; otherwise the entries are searched in order for the first
recursive hit; a non-empty list is entered only through its last element and
only when that element is a dict; scalars and empty lists yield not-found. -/
theorem c4_find_characterization :
    (∀ (kvs : List (String × Json)) (key : String) (v : Json),
       lookupKey kvs key = some v →
       find_key_in_json (.obj kvs) key = some v) ∧
    (∀ (kvs : List (String × Json)) (key : String),
       lookupKey kvs key = none →
       find_key_in_json (.obj kvs) key =
         kvs.findSome? fun kv => find_key_in_json kv.2 key) ∧
    (∀ (xs : List Json) (key : String) (inner : List (String × Json)),
       xs.getLast? = some (.obj inner) →
       find_key_in_json (.arr xs) key = find_key_in_json (.obj inner) key) ∧
    (∀ (xs : List Json) (key : String),
       (∀ inner, xs.getLast? ≠ some (.obj inner)) →
       find_key_in_json (.arr xs) key = none) ∧
    (∀ key, find_key_in_json (.arr []) key = none) ∧
    (∀ key b n s, find_key_in_json .null key = none ∧
       find_key_in_json (.bool b) key = none ∧
       find_key_in_json (.num n) key = none ∧
       find_key_in_json (.str s) key = none) := by
  refine ⟨?_, ?_, ?_, ?_, fun key => rfl, fun key b n s => ⟨rfl, rfl, rfl, rfl⟩⟩
  · intro kvs key v h
    simp [find_key_in_json, h]
  · intro kvs key h
    simp [find_key_in_json, h, findInEntries_eq_findSome]
  · intro xs key inner h
    rw [show find_key_in_json (.arr xs) key = findInLastElem xs key from by
      simp [find_key_in_json]]
    rw [findInLastElem_eq, h]
  · intro xs key h
    rw [show find_key_in_json (.arr xs) key = findInLastElem xs key from by
      simp [find_key_in_json]]
    rw [findInLastElem_eq]
    cases hl : xs.getLast? with
    | none => simp
    | some x =>
        cases x with
        | obj inner => exact absurd hl (h inner)
        | null => simp
        | bool b => simp
        | num n => simp
        | str s => simp
        | arr ys => simp

/-- C4, witness: a direct hit at the current level, the last-element rule for
lists, and the not-found case for a list whose last element is not a dict. -/
theorem c4_witness :
    find_key_in_json (.obj [("a", Json.num 1), ("b", Json.num 2)]) "a" =
      some (Json.num 1) ∧
    find_key_in_json (.arr [Json.num 0, Json.obj [("k", Json.str "v")]]) "k" =
      find_key_in_json (.obj [("k", Json.str "v")]) "k" ∧
    find_key_in_json (.arr [Json.num 0, Json.num 1]) "k" = none := by
  refine ⟨c4_find_characterization.1 _ "a" _ rfl,
          c4_find_characterization.2.2.1 _ "k" _ rfl,
          c4_find_characterization.2.2.2.1 _ "k" ?_⟩
  intro inner h
  exact Json.noConfusion (Option.some.inj h)

/-!
## Claim C5 — mid-stream failure
-/

theorem error_chunk_eq (e rid idv : String) (created : Int) (mn : Json) :
    error_chunk e rid idv created mn = .ok (err_frame e rid created mn) := rfl

theorem process_stream_chunk_ok (chunk : Json) (rid idv : String)
    (created : Int) (mn : Json) :
    ∃ r, process_stream_chunk chunk rid idv created mn = .ok r := by
  cases chunk with
  | null => exact ⟨_, rfl⟩
  | str s => exact ⟨_, rfl⟩
  | obj items => exact ⟨_, rfl⟩
  | bool b => exact ⟨_, rfl⟩
  | num n => exact ⟨_, rfl⟩
  | arr xs => exact ⟨_, rfl⟩

theorem updateEntries_preserves_str_binding (key : String) (nv : Json)
    (k0 s0 : String) :
    ∀ kvs : List (String × Json), lookupKey kvs k0 = some (.str s0) →
      lookupKey (updateEntries kvs key nv).2 k0 = some (.str s0) := by
  intro kvs
  induction kvs with
  | nil => intro h; simp [lookupKey] at h
  | cons hd tl ih =>
      intro h
      obtain ⟨k1, v1⟩ := hd
      by_cases h1 : k1 = k0
      · subst h1
        have hv : v1 = .str s0 := by simpa [lookupKey] using h
        subst hv
        simp [updateEntries, lookupKey]
      · have h' : lookupKey tl k0 = some (.str s0) := by
          simpa [lookupKey, h1] using h
        cases v1 with
        | obj inner =>
            rcases hu : update_json_with_key inner key nv with ⟨b, res⟩
            cases b
            · simp [updateEntries, hu, lookupKey, h1, ih h']
            · simp [updateEntries, hu, lookupKey, h1, h']
        | arr xs =>
            rcases hu : updateLastElem xs key nv with ⟨b, res⟩
            cases b
            · simp [updateEntries, hu, lookupKey, h1, ih h']
            · simp [updateEntries, hu, lookupKey, h1, h']
        | null => simp [updateEntries, lookupKey, h1, ih h']
        | bool b2 => simp [updateEntries, lookupKey, h1, ih h']
        | num n2 => simp [updateEntries, lookupKey, h1, ih h']
        | str s2 => simp [updateEntries, lookupKey, h1, ih h']

theorem update_preserves_str_binding (kvs : List (String × Json)) (key : String)
    (nv : Json) (k0 s0 : String) (hne : key ≠ k0)
    (h : lookupKey kvs k0 = some (.str s0)) :
    lookupKey (update_json_with_key kvs key nv).2 k0 = some (.str s0) := by
  by_cases hc : containsKey kvs key
  · simp only [update_json_with_key, if_pos hc]
    rw [lookupKey_dictSet_ne _ _ _ _ (Ne.symm hne)]
    exact h
  · simp only [update_json_with_key, if_neg hc]
    exact updateEntries_preserves_str_binding key nv k0 s0 kvs h

theorem applyUpdates_preserves_str_binding (k0 s0 : String) :
    ∀ (items resp : List (String × Json)),
      containsKey items k0 = false →
      lookupKey resp k0 = some (.str s0) →
      lookupKey (applyUpdates items resp).2 k0 = some (.str s0) := by
  intro items
  induction items with
  | nil => intro resp _ h; simpa [applyUpdates] using h
  | cons hd tl ih =>
      intro resp hni h
      obtain ⟨k, v⟩ := hd
      have hk : ¬ (k = k0) := by
        intro hkk
        subst hkk
        simp [containsKey, lookupKey] at hni
      have htl : containsKey tl k0 = false := by
        simpa [containsKey, lookupKey, hk] using hni
      rcases hu : update_json_with_key resp k v with ⟨b, resp2⟩
      have hr2 : lookupKey resp2 k0 = some (.str s0) := by
        have hp := update_preserves_str_binding resp k v k0 s0 hk h
        rw [hu] at hp
        exact hp
      cases b
      · simpa [applyUpdates, hu] using ih resp2 htl hr2
      · simpa [applyUpdates, hu] using ih resp2 htl hr2

theorem process_chunk_keeps_id (c : Json) (rid idv : String) (created : Int)
    (mn : Json) (hc : chunkKeepsId c = true) (ws : List String)
    (fr : List (String × Json))
    (h : process_stream_chunk c rid idv created mn = .ok (ws, fr)) :
    lookupKey fr "id" = some (.str rid) := by
  cases c with
  | null => cases h; rfl
  | str s => cases h; rfl
  | bool b => cases h; rfl
  | num n => cases h; rfl
  | arr xs => cases h; rfl
  | obj items =>
      have hid : containsKey items "id" = false := by
        simpa [chunkKeepsId] using hc
      have heq : process_stream_chunk (.obj items) rid idv created mn =
          .ok ((applyUpdates items
            (dictSet (get_stream_response idv created mn) "id" (.str rid))).1,
               (applyUpdates items
            (dictSet (get_stream_response idv created mn) "id" (.str rid))).2) :=
        rfl
      rw [heq] at h
      cases h
      exact applyUpdates_preserves_str_binding "id" rid items _ hid rfl

theorem stream_generator_ok_frames (rid idv : String) (created : Int)
    (mn : Json) :
    ∀ goods : List Json,
      (stream_generator (goods.map Except.ok) rid idv created mn).length =
        goods.length ∧
      ∀ fr ∈ stream_generator (goods.map Except.ok) rid idv created mn,
        ∃ c ∈ goods, ∃ ws,
          process_stream_chunk c rid idv created mn = .ok (ws, fr) := by
  intro goods
  induction goods with
  | nil => simp [stream_generator]
  | cons c tl ih =>
      obtain ⟨r, hr⟩ := process_stream_chunk_ok c rid idv created mn
      refine ⟨by simp [stream_generator, hr, ih.1], ?_⟩
      intro fr hfr
      rw [show stream_generator ((c :: tl).map Except.ok) rid idv created mn =
          r.2 :: stream_generator (tl.map Except.ok) rid idv created mn from by
        simp [stream_generator, hr]] at hfr
      rcases List.mem_cons.mp hfr with rfl | htl
      · exact ⟨c, List.mem_cons_self .., r.1, by rw [hr]⟩
      · obtain ⟨c2, hc2, ws2, hws2⟩ := ih.2 fr htl
        exact ⟨c2, List.mem_cons_of_mem _ hc2, ws2, hws2⟩

/-- C5, counterexample: a dict chunk carrying an `"id"` key overwrites its
own frame's identifier, so not all frames of a failing stream share one
response identifier. -/
theorem c5_counterexample :
    ((stream_generator
        [Except.ok (Json.obj [("id", Json.str "x")]), Except.error "boom"]
        "rid" "id0" 0 (Json.str "m")).map (fun fr => lookupKey fr "id")) =
      [some (Json.str "x"), some (Json.str "rid")] ∧
    Json.str "x" ≠ Json.str "rid" := by
  constructor
  · simp [stream_generator, process_stream_chunk, applyUpdates,
          update_json_with_key, containsKey, lookupKey, dictSet,
          get_stream_response, error_chunk, pySetChoice0Nested, pySetChoice0,
          Except.bind, bind, pure, Except.pure]
  · simp

/-- C5 (amended): a chunk source that raises after `k` successful chunks
yields exactly `k+1` frames — the `k` frames of the successful prefix
followed by one terminal frame with `"Error: " + message` in the delta
content slot and `finish_reason = "error"` — and nothing after the failure
is consumed; all frames carry the minted identifier provided no dict chunk
carries an `"id"` key of its own (such a chunk overwrites its frame's
identifier). -/
theorem c5_amended_stream_failure (goods : List Json) (e : String)
    (rest : List (Except String Json)) (rid idv : String) (created : Int)
    (mn : Json) :
    stream_generator (goods.map Except.ok ++ Except.error e :: rest)
        rid idv created mn =
      stream_generator (goods.map Except.ok) rid idv created mn ++
        [err_frame e rid created mn] ∧
    (stream_generator (goods.map Except.ok ++ Except.error e :: rest)
        rid idv created mn).length = goods.length + 1 ∧
    getAt (.obj (err_frame e rid created mn))
        [.field "choices", .last, .field "delta", .field "content"] =
      some (.str ("Error: " ++ e)) ∧
    getAt (.obj (err_frame e rid created mn))
        [.field "choices", .last, .field "finish_reason"] =
      some (.str "error") ∧
    ((∀ c ∈ goods, chunkKeepsId c = true) →
      ∀ fr ∈ stream_generator (goods.map Except.ok ++ Except.error e :: rest)
          rid idv created mn,
        lookupKey fr "id" = some (.str rid)) := by
  have heq : stream_generator (goods.map Except.ok ++ Except.error e :: rest)
      rid idv created mn =
      stream_generator (goods.map Except.ok) rid idv created mn ++
        [err_frame e rid created mn] := by
    induction goods with
    | nil => simp [stream_generator, error_chunk_eq]
    | cons c tl ih =>
        obtain ⟨r, hr⟩ := process_stream_chunk_ok c rid idv created mn
        simp [stream_generator, hr, ih]
  refine ⟨heq, ?_, rfl, rfl, ?_⟩
  · rw [heq]
    simp [(stream_generator_ok_frames rid idv created mn goods).1]
  · intro hkeep fr hmem
    rw [heq] at hmem
    rcases List.mem_append.mp hmem with hin | hlast
    · obtain ⟨c, hcmem, ws, hpr⟩ :=
        (stream_generator_ok_frames rid idv created mn goods).2 fr hin
      exact process_chunk_keeps_id c rid idv created mn (hkeep c hcmem) ws fr hpr
    · rcases List.mem_singleton.mp hlast with rfl
      rfl

/-- C5, witness: two successful string chunks then a failure yield three
frames with the expected shapes. -/
theorem c5_witness :
    stream_generator
        [Except.ok (Json.str "a"), Except.ok (Json.str "b"),
         Except.error "boom"] "rid" "id0" 0 (Json.str "m") =
      stream_generator [Except.ok (Json.str "a"), Except.ok (Json.str "b")]
        "rid" "id0" 0 (Json.str "m") ++ [err_frame "boom" "rid" 0 (Json.str "m")] ∧
    (stream_generator
        [Except.ok (Json.str "a"), Except.ok (Json.str "b"),
         Except.error "boom"] "rid" "id0" 0 (Json.str "m")).length = 3 ∧
    (∀ fr ∈ stream_generator
        [Except.ok (Json.str "a"), Except.ok (Json.str "b"),
         Except.error "boom"] "rid" "id0" 0 (Json.str "m"),
      lookupKey fr "id" = some (Json.str "rid")) := by
  have h := c5_amended_stream_failure [Json.str "a", Json.str "b"] "boom" []
    "rid" "id0" 0 (Json.str "m")
  refine ⟨h.1, h.2.1, h.2.2.2.2 ?_⟩
  intro c hc
  rcases List.mem_cons.mp hc with rfl | hc2
  · rfl
  · rcases List.mem_cons.mp hc2 with rfl | h3
    · rfl
    · simp at h3

/-!
## Claim C10 — the write path modifies exactly the first matching slot
-/

theorem containsKey_cons {α : Type} (k1 : String) (v1 : α)
    (tl : List (String × α)) (k2 : String) :
    containsKey ((k1, v1) :: tl) k2 =
      if k1 = k2 then true else containsKey tl k2 := by
  by_cases h : k1 = k2 <;> simp [containsKey, lookupKey, h]

theorem getLast?_setLast : ∀ (xs : List Json) (x v : Json),
    xs.getLast? = some x → (setLast xs v).getLast? = some v := by
  intro xs
  induction xs with
  | nil => intro x v h; simp at h
  | cons y tl ih =>
      intro x v h
      cases tl with
      | nil => simp [setLast]
      | cons z rest =>
          rw [List.getLast?_cons_cons] at h
          have h2 := ih x v h
          rw [show setLast (y :: z :: rest) v = y :: setLast (z :: rest) v
            from rfl]
          cases hs : setLast (z :: rest) v with
          | nil => rw [hs] at h2; simp at h2
          | cons w ws =>
              rw [hs] at h2
              rw [List.getLast?_cons_cons]
              exact h2

theorem findWritePathEntries_head :
    ∀ (kvs : List (String × Json)) (key : String) (p : List PathStep),
      findWritePathEntries kvs key = some p →
      ∃ k2 tail, p = .field k2 :: tail ∧ containsKey kvs k2 = true := by
  intro kvs key
  induction kvs with
  | nil => intro p h; simp [findWritePathEntries] at h
  | cons hd tl ih =>
      intro p h
      obtain ⟨k1, v1⟩ := hd
      cases v1 with
      | obj inner =>
          cases hf : findWritePath inner key with
          | some p1 =>
              rw [show findWritePathEntries ((k1, Json.obj inner) :: tl) key =
                  some (.field k1 :: p1) from by
                simp [findWritePathEntries, hf]] at h
              exact ⟨k1, p1, (Option.some.inj h).symm,
                by simp [containsKey_cons]⟩
          | none =>
              rw [show findWritePathEntries ((k1, Json.obj inner) :: tl) key =
                  findWritePathEntries tl key from by
                simp [findWritePathEntries, hf]] at h
              obtain ⟨k2, tail, rfl, hmem⟩ := ih p h
              refine ⟨k2, tail, rfl, ?_⟩
              rw [containsKey_cons]
              by_cases h12 : k1 = k2 <;> simp [h12, hmem]
      | arr xs =>
          cases hf : findWritePathLast xs key with
          | some tail1 =>
              rw [show findWritePathEntries ((k1, Json.arr xs) :: tl) key =
                  some (.field k1 :: tail1) from by
                simp [findWritePathEntries, hf]] at h
              exact ⟨k1, tail1, (Option.some.inj h).symm,
                by simp [containsKey_cons]⟩
          | none =>
              rw [show findWritePathEntries ((k1, Json.arr xs) :: tl) key =
                  findWritePathEntries tl key from by
                simp [findWritePathEntries, hf]] at h
              obtain ⟨k2, tail, rfl, hmem⟩ := ih p h
              refine ⟨k2, tail, rfl, ?_⟩
              rw [containsKey_cons]
              by_cases h12 : k1 = k2 <;> simp [h12, hmem]
      | null =>
          rw [show findWritePathEntries ((k1, Json.null) :: tl) key =
              findWritePathEntries tl key from by
            simp [findWritePathEntries]] at h
          obtain ⟨k2, tail, rfl, hmem⟩ := ih p h
          refine ⟨k2, tail, rfl, ?_⟩
          rw [containsKey_cons]
          by_cases h12 : k1 = k2 <;> simp [h12, hmem]
      | bool b =>
          rw [show findWritePathEntries ((k1, Json.bool b) :: tl) key =
              findWritePathEntries tl key from by
            simp [findWritePathEntries]] at h
          obtain ⟨k2, tail, rfl, hmem⟩ := ih p h
          refine ⟨k2, tail, rfl, ?_⟩
          rw [containsKey_cons]
          by_cases h12 : k1 = k2 <;> simp [h12, hmem]
      | num n =>
          rw [show findWritePathEntries ((k1, Json.num n) :: tl) key =
              findWritePathEntries tl key from by
            simp [findWritePathEntries]] at h
          obtain ⟨k2, tail, rfl, hmem⟩ := ih p h
          refine ⟨k2, tail, rfl, ?_⟩
          rw [containsKey_cons]
          by_cases h12 : k1 = k2 <;> simp [h12, hmem]
      | str s =>
          rw [show findWritePathEntries ((k1, Json.str s) :: tl) key =
              findWritePathEntries tl key from by
            simp [findWritePathEntries]] at h
          obtain ⟨k2, tail, rfl, hmem⟩ := ih p h
          refine ⟨k2, tail, rfl, ?_⟩
          rw [containsKey_cons]
          by_cases h12 : k1 = k2 <;> simp [h12, hmem]

theorem findWritePathLast_head :
    ∀ (xs : List Json) (key : String) (p : List PathStep),
      findWritePathLast xs key = some p → ∃ tail, p = .last :: tail := by
  intro xs key
  induction xs with
  | nil => intro p h; simp [findWritePathLast] at h
  | cons x tl ih =>
      cases tl with
      | nil =>
          intro p h
          cases x with
          | obj inner =>
              cases hf : findWritePath inner key with
              | some p1 =>
                  rw [show findWritePathLast [Json.obj inner] key =
                      some (.last :: p1) from by
                    simp [findWritePathLast, hf]] at h
                  exact ⟨p1, (Option.some.inj h).symm⟩
              | none => simp [findWritePathLast, hf] at h
          | null => simp [findWritePathLast] at h
          | bool b => simp [findWritePathLast] at h
          | num n => simp [findWritePathLast] at h
          | str s => simp [findWritePathLast] at h
          | arr ys => simp [findWritePathLast] at h
      | cons y rest =>
          intro p h
          exact ih p (by
            rw [show findWritePathLast (x :: y :: rest) key =
                findWritePathLast (y :: rest) key from by
              simp [findWritePathLast]] at h
            exact h)

theorem setAt_entries_lift (k : String) (v : Json)
    (rest r2 : List (String × Json)) (k2 : String) (tail : List PathStep)
    (nv : Json) (hk2 : ¬ (k = k2))
    (hset : setAt (.obj rest) (.field k2 :: tail) nv = some (.obj r2)) :
    setAt (.obj ((k, v) :: rest)) (.field k2 :: tail) nv =
      some (.obj ((k, v) :: r2)) := by
  cases hw : lookupKey rest k2 with
  | none => simp [setAt, hw] at hset
  | some w =>
      cases hs : setAt w tail nv with
      | none => simp [setAt, hw, hs] at hset
      | some w2 =>
          simp only [setAt, hw, hs] at hset
          have hr2 : dictSet rest k2 w2 = r2 :=
            Json.obj.inj (Option.some.inj hset)
          simp [setAt, lookupKey, hk2, hw, hs, dictSet, hr2]

theorem setAt_last_lift (x y : Json) (rest : List Json) (tail : List PathStep)
    (nv : Json) (l2 : List Json)
    (hset : setAt (.arr (y :: rest)) (.last :: tail) nv = some (.arr l2)) :
    setAt (.arr (x :: y :: rest)) (.last :: tail) nv =
      some (.arr (x :: l2)) := by
  cases hg : (y :: rest).getLast? with
  | none => simp at hg
  | some z =>
      cases hs : setAt z tail nv with
      | none => simp [setAt, hg, hs] at hset
      | some z2 =>
          simp only [setAt, hg, hs] at hset
          have hl2 : setLast (y :: rest) z2 = l2 :=
            Json.arr.inj (Option.some.inj hset)
          simp only [setAt, List.getLast?_cons_cons, hg, hs]
          rw [show setLast (x :: y :: rest) z2 =
              x :: setLast (y :: rest) z2 from rfl]
          rw [hl2]

theorem wfJson_obj (kvs : List (String × Json)) :
    wfJson (.obj kvs) = wfEntries kvs := by simp [wfJson]

theorem wfJson_arr (xs : List Json) : wfJson (.arr xs) = wfList xs := by
  simp [wfJson]

theorem wfList_cons (a : Json) (l : List Json) :
    wfList (a :: l) = (wfJson a && wfList l) := by simp [wfList]

theorem wfEntries_cons (k : String) (v : Json) (rest : List (String × Json)) :
    wfEntries ((k, v) :: rest) =
      (!containsKey rest k && wfJson v && wfEntries rest) := by
  simp [wfEntries]

/-- A skipped entry (whose value matched nothing) passes the spec through to
the remaining entries. -/
theorem updateEntriesSpec_skip (k : String) (v : Json)
    (rest : List (String × Json)) (key : String) (nv : Json)
    (hfpE : findWritePathEntries ((k, v) :: rest) key =
      findWritePathEntries rest key)
    (hupE : updateEntries ((k, v) :: rest) key nv =
      ((updateEntries rest key nv).1, (k, v) :: (updateEntries rest key nv).2))
    (hwfd : wfEntries ((k, v) :: rest) = true →
      containsKey rest k = false ∧ wfEntries rest = true)
    (ih2 : UpdateEntriesSpec rest key nv) :
    UpdateEntriesSpec ((k, v) :: rest) key nv := by
  rw [UpdateEntriesSpec, hfpE, hupE]
  constructor
  · intro hn
    simp [ih2.1 hn]
  · intro p hp
    obtain ⟨k2, tail, hpe, hck2⟩ := findWritePathEntries_head rest key p hp
    subst hpe
    have h6 := ih2.2 _ hp
    refine ⟨by simp [h6.1], ?_⟩
    intro hwf
    obtain ⟨hck, hwfrest⟩ := hwfd hwf
    have hkne : ¬ (k = k2) := by
      intro hkk
      subst hkk
      rw [hck2] at hck
      exact Bool.noConfusion hck
    exact setAt_entries_lift k v rest _ k2 tail nv hkne (h6.2 hwfrest)

theorem update_agrees_with_findWritePath :
    ∀ (kvs : List (String × Json)) (key : String) (nv : Json),
      UpdateTopSpec kvs key nv := by
  refine update_json_with_key.induct UpdateTopSpec UpdateEntriesSpec
    UpdateLastSpec ?_ ?_ ?_ ?_ ?_ ?_ ?_ ?_ ?_ ?_ ?_ ?_ ?_
  -- direct hit at the current level
  · intro kvs key nv h
    have hfp : findWritePath kvs key = some [.field key] := by
      simp [findWritePath, h]
    have hup : update_json_with_key kvs key nv = (true, dictSet kvs key nv) := by
      simp [update_json_with_key, h]
    constructor
    · intro hn
      rw [hfp] at hn
      exact Option.noConfusion hn
    · intro p hp
      rw [hfp] at hp
      have hpe : p = [.field key] := (Option.some.inj hp).symm
      subst hpe
      refine ⟨by rw [hup], ?_⟩
      intro _
      obtain ⟨w, hw⟩ := Option.isSome_iff_exists.mp h
      rw [hup]
      simp [setAt, hw]
  -- no direct hit: defer to the entry loop
  · intro kvs key nv h ih
    have hfp : findWritePath kvs key = findWritePathEntries kvs key := by
      simp [findWritePath, h]
    have hup : update_json_with_key kvs key nv = updateEntries kvs key nv := by
      simp [update_json_with_key, h]
    rw [UpdateTopSpec, hfp, hup]
    exact ih
  -- empty entry list
  · intro key nv
    constructor
    · intro _
      simp [updateEntries]
    · intro p hp
      simp [findWritePathEntries] at hp
  -- dict-valued entry, inner update succeeds
  · intro k rest key nv inner inner2 hupd ih1
    have hfpi : ∃ p1, findWritePath inner key = some p1 := by
      cases hf : findWritePath inner key with
      | some p1 => exact ⟨p1, rfl⟩
      | none =>
          have hcontra := ih1.1 hf
          rw [hupd] at hcontra
          simp at hcontra
    obtain ⟨p1, hfp1⟩ := hfpi
    have hfpE : findWritePathEntries ((k, Json.obj inner) :: rest) key =
        some (.field k :: p1) := by
      simp [findWritePathEntries, hfp1]
    have hupE : updateEntries ((k, Json.obj inner) :: rest) key nv =
        (true, (k, Json.obj inner2) :: rest) := by
      simp [updateEntries, hupd]
    constructor
    · intro hn
      rw [hfpE] at hn
      exact Option.noConfusion hn
    · intro p hp
      rw [hfpE] at hp
      have hpe : p = .field k :: p1 := (Option.some.inj hp).symm
      subst hpe
      refine ⟨by rw [hupE], ?_⟩
      intro hwf
      rw [wfEntries_cons, Bool.and_eq_true, Bool.and_eq_true, wfJson_obj] at hwf
      have hset := (ih1.2 p1 hfp1).2 hwf.1.2
      rw [hupd] at hset
      rw [hupE]
      simp [setAt, lookupKey, hset, dictSet]
  -- dict-valued entry, inner update fails: skip to the rest
  · intro k rest key nv inner snd hupd ih1 ih2
    have hfpi : findWritePath inner key = none := by
      cases hf : findWritePath inner key with
      | none => rfl
      | some p1 =>
          have hcontra := (ih1.2 p1 hf).1
          rw [hupd] at hcontra
          exact Bool.noConfusion hcontra
    refine updateEntriesSpec_skip k (Json.obj inner) rest key nv
      (by simp [findWritePathEntries, hfpi])
      (by simp [updateEntries, hupd]) ?_ ih2
    intro hwf
    rw [wfEntries_cons, Bool.and_eq_true, Bool.and_eq_true] at hwf
    exact ⟨by simpa using hwf.1.1, hwf.2⟩
  -- list-valued entry, last-element update succeeds
  · intro k rest key nv xs xs2 hupd ih3
    have hfl : ∃ tail, findWritePathLast xs key = some tail := by
      cases hf : findWritePathLast xs key with
      | some t => exact ⟨t, rfl⟩
      | none =>
          have hcontra := ih3.1 hf
          rw [hupd] at hcontra
          simp at hcontra
    obtain ⟨tail, hfl⟩ := hfl
    have hfpE : findWritePathEntries ((k, Json.arr xs) :: rest) key =
        some (.field k :: tail) := by
      simp [findWritePathEntries, hfl]
    have hupE : updateEntries ((k, Json.arr xs) :: rest) key nv =
        (true, (k, Json.arr xs2) :: rest) := by
      simp [updateEntries, hupd]
    constructor
    · intro hn
      rw [hfpE] at hn
      exact Option.noConfusion hn
    · intro p hp
      rw [hfpE] at hp
      have hpe : p = .field k :: tail := (Option.some.inj hp).symm
      subst hpe
      refine ⟨by rw [hupE], ?_⟩
      intro hwf
      rw [wfEntries_cons, Bool.and_eq_true, Bool.and_eq_true, wfJson_arr] at hwf
      have hset := (ih3.2 tail hfl).2 hwf.1.2
      rw [hupd] at hset
      rw [hupE]
      simp [setAt, lookupKey, hset, dictSet]
  -- list-valued entry, last-element update fails: skip to the rest
  · intro k rest key nv xs snd hupd ih3 ih2
    have hfl : findWritePathLast xs key = none := by
      cases hf : findWritePathLast xs key with
      | none => rfl
      | some t =>
          have hcontra := (ih3.2 t hf).1
          rw [hupd] at hcontra
          exact Bool.noConfusion hcontra
    refine updateEntriesSpec_skip k (Json.arr xs) rest key nv
      (by simp [findWritePathEntries, hfl])
      (by simp [updateEntries, hupd]) ?_ ih2
    intro hwf
    rw [wfEntries_cons, Bool.and_eq_true, Bool.and_eq_true] at hwf
    exact ⟨by simpa using hwf.1.1, hwf.2⟩
  -- scalar entry: skip to the rest
  · intro k v rest key nv hnobj hnarr ih2
    cases v with
    | obj inner => exact (hnobj inner rfl).elim
    | arr xs => exact (hnarr xs rfl).elim
    | null =>
        refine updateEntriesSpec_skip k Json.null rest key nv
          (by simp [findWritePathEntries]) (by simp [updateEntries]) ?_ ih2
        intro hwf
        rw [wfEntries_cons, Bool.and_eq_true, Bool.and_eq_true] at hwf
        exact ⟨by simpa using hwf.1.1, hwf.2⟩
    | bool b =>
        refine updateEntriesSpec_skip k (Json.bool b) rest key nv
          (by simp [findWritePathEntries]) (by simp [updateEntries]) ?_ ih2
        intro hwf
        rw [wfEntries_cons, Bool.and_eq_true, Bool.and_eq_true] at hwf
        exact ⟨by simpa using hwf.1.1, hwf.2⟩
    | num n =>
        refine updateEntriesSpec_skip k (Json.num n) rest key nv
          (by simp [findWritePathEntries]) (by simp [updateEntries]) ?_ ih2
        intro hwf
        rw [wfEntries_cons, Bool.and_eq_true, Bool.and_eq_true] at hwf
        exact ⟨by simpa using hwf.1.1, hwf.2⟩
    | str s =>
        refine updateEntriesSpec_skip k (Json.str s) rest key nv
          (by simp [findWritePathEntries]) (by simp [updateEntries]) ?_ ih2
        intro hwf
        rw [wfEntries_cons, Bool.and_eq_true, Bool.and_eq_true] at hwf
        exact ⟨by simpa using hwf.1.1, hwf.2⟩
  -- empty list
  · intro key nv
    constructor
    · intro _
      simp [updateLastElem]
    · intro p hp
      simp [findWritePathLast] at hp
  -- singleton list with dict element, inner update succeeds
  · intro key nv kvs inner2 hupd ih1
    have hfpi : ∃ p1, findWritePath kvs key = some p1 := by
      cases hf : findWritePath kvs key with
      | some p1 => exact ⟨p1, rfl⟩
      | none =>
          have hcontra := ih1.1 hf
          rw [hupd] at hcontra
          simp at hcontra
    obtain ⟨p1, hfp1⟩ := hfpi
    have hfpL : findWritePathLast [Json.obj kvs] key = some (.last :: p1) := by
      simp [findWritePathLast, hfp1]
    have hupL : updateLastElem [Json.obj kvs] key nv =
        (true, [Json.obj inner2]) := by
      simp [updateLastElem, hupd]
    constructor
    · intro hn
      rw [hfpL] at hn
      exact Option.noConfusion hn
    · intro p hp
      rw [hfpL] at hp
      have hpe : p = .last :: p1 := (Option.some.inj hp).symm
      subst hpe
      refine ⟨by rw [hupL], ?_⟩
      intro hwf
      rw [wfList_cons, Bool.and_eq_true, wfJson_obj] at hwf
      have hset := (ih1.2 p1 hfp1).2 hwf.1
      rw [hupd] at hset
      rw [hupL]
      simp [setAt, List.getLast?, hset, setLast]
  -- singleton list with dict element, inner update fails
  · intro key nv kvs snd hupd ih1
    have hfpi : findWritePath kvs key = none := by
      cases hf : findWritePath kvs key with
      | none => rfl
      | some p1 =>
          have hcontra := (ih1.2 p1 hf).1
          rw [hupd] at hcontra
          exact Bool.noConfusion hcontra
    constructor
    · intro _
      simp [updateLastElem, hupd]
    · intro p hp
      rw [show findWritePathLast [Json.obj kvs] key = none from by
        simp [findWritePathLast, hfpi]] at hp
      exact Option.noConfusion hp
  -- singleton list with non-dict element
  · intro x key nv hnobj
    cases x with
    | obj kvs => exact (hnobj kvs rfl).elim
    | null =>
        exact ⟨fun _ => by simp [updateLastElem],
               fun p hp => by simp [findWritePathLast] at hp⟩
    | bool b =>
        exact ⟨fun _ => by simp [updateLastElem],
               fun p hp => by simp [findWritePathLast] at hp⟩
    | num n =>
        exact ⟨fun _ => by simp [updateLastElem],
               fun p hp => by simp [findWritePathLast] at hp⟩
    | str s =>
        exact ⟨fun _ => by simp [updateLastElem],
               fun p hp => by simp [findWritePathLast] at hp⟩
    | arr ys =>
        exact ⟨fun _ => by simp [updateLastElem],
               fun p hp => by simp [findWritePathLast] at hp⟩
  -- longer list: walk to the last element
  · intro x y rest key nv ih3
    have hfpL : findWritePathLast (x :: y :: rest) key =
        findWritePathLast (y :: rest) key := by
      simp [findWritePathLast]
    have hupL : updateLastElem (x :: y :: rest) key nv =
        ((updateLastElem (y :: rest) key nv).1,
         x :: (updateLastElem (y :: rest) key nv).2) := by
      simp [updateLastElem]
    rw [UpdateLastSpec, hfpL, hupL]
    constructor
    · intro hn
      simp [ih3.1 hn]
    · intro p hp
      obtain ⟨tail, hpe⟩ := findWritePathLast_head (y :: rest) key p hp
      subst hpe
      have h6 := ih3.2 _ hp
      refine ⟨by simp [h6.1], ?_⟩
      intro hwf
      rw [wfList_cons, Bool.and_eq_true] at hwf
      exact setAt_last_lift x y rest tail nv _ (h6.2 hwf.2)

theorem getAt_setAt_same :
    ∀ (p : List PathStep) (j j' v : Json),
      setAt j p v = some j' → getAt j' p = some v := by
  intro p
  induction p with
  | nil =>
      intro j j' v h
      simp only [setAt] at h
      rw [← Option.some.inj h]
      simp [getAt]
  | cons step p' ih =>
      intro j j' v h
      cases step with
      | field k =>
          cases j with
          | obj kvs =>
              cases hw : lookupKey kvs k with
              | none => simp [setAt, hw] at h
              | some w =>
                  cases hs : setAt w p' v with
                  | none => simp [setAt, hw, hs] at h
                  | some w2 =>
                      simp only [setAt, hw, hs] at h
                      rw [← Option.some.inj h]
                      rw [show getAt (.obj (dictSet kvs k w2)) (.field k :: p') =
                          getAt w2 p' from by
                        simp [getAt, lookupKey_dictSet_self]]
                      exact ih w w2 v hs
          | null => simp [setAt] at h
          | bool b => simp [setAt] at h
          | num n => simp [setAt] at h
          | str s => simp [setAt] at h
          | arr xs => simp [setAt] at h
      | last =>
          cases j with
          | arr xs =>
              cases hg : xs.getLast? with
              | none => simp [setAt, hg] at h
              | some z =>
                  cases hs : setAt z p' v with
                  | none => simp [setAt, hg, hs] at h
                  | some z2 =>
                      simp only [setAt, hg, hs] at h
                      rw [← Option.some.inj h]
                      rw [show getAt (.arr (setLast xs z2)) (.last :: p') =
                          getAt z2 p' from by
                        simp [getAt, getLast?_setLast xs z z2 hg]]
                      exact ih z z2 v hs
          | null => simp [setAt] at h
          | bool b => simp [setAt] at h
          | num n => simp [setAt] at h
          | str s => simp [setAt] at h
          | obj kvs => simp [setAt] at h

theorem getAt_setAt_off :
    ∀ (p q : List PathStep) (j j' v : Json),
      setAt j p v = some j' →
      pathStartsWith q p = false → pathStartsWith p q = false →
      getAt j' q = getAt j q := by
  intro p
  induction p with
  | nil =>
      intro q j j' v _ hq _
      simp [pathStartsWith] at hq
  | cons step p' ih =>
      intro q j j' v h hq hp
      cases q with
      | nil => simp [pathStartsWith] at hp
      | cons step' q' =>
          cases step with
          | field k =>
              cases j with
              | obj kvs =>
                  cases hw : lookupKey kvs k with
                  | none => simp [setAt, hw] at h
                  | some w =>
                      cases hs : setAt w p' v with
                      | none => simp [setAt, hw, hs] at h
                      | some w2 =>
                          simp only [setAt, hw, hs] at h
                          rw [← Option.some.inj h]
                          cases step' with
                          | field k2 =>
                              by_cases hk : k2 = k
                              · subst hk
                                simp only [pathStartsWith, decide_True,
                                  Bool.true_and] at hq hp
                                rw [show getAt
                                    (.obj (dictSet kvs k2 w2))
                                    (.field k2 :: q') = getAt w2 q' from by
                                  simp [getAt, lookupKey_dictSet_self]]
                                rw [show getAt (.obj kvs) (.field k2 :: q') =
                                    getAt w q' from by simp [getAt, hw]]
                                exact ih q' w w2 v hs hq hp
                              · simp only [getAt]
                                rw [lookupKey_dictSet_ne kvs k k2 w2 hk]
                          | last => simp [getAt]
              | null => simp [setAt] at h
              | bool b => simp [setAt] at h
              | num n => simp [setAt] at h
              | str s => simp [setAt] at h
              | arr xs => simp [setAt] at h
          | last =>
              cases j with
              | arr xs =>
                  cases hg : xs.getLast? with
                  | none => simp [setAt, hg] at h
                  | some z =>
                      cases hs : setAt z p' v with
                      | none => simp [setAt, hg, hs] at h
                      | some z2 =>
                          simp only [setAt, hg, hs] at h
                          rw [← Option.some.inj h]
                          cases step' with
                          | field k2 => simp [getAt]
                          | last =>
                              simp only [pathStartsWith, decide_True,
                                Bool.true_and] at hq hp
                              rw [show getAt (.arr (setLast xs z2))
                                  (.last :: q') = getAt z2 q' from by
                                simp [getAt, getLast?_setLast xs z z2 hg]]
                              rw [show getAt (.arr xs) (.last :: q') =
                                  getAt z q' from by simp [getAt, hg]]
                              exact ih q' z z2 v hs hq hp
              | null => simp [setAt] at h
              | bool b => simp [setAt] at h
              | num n => simp [setAt] at h
              | str s => simp [setAt] at h
              | obj kvs => simp [setAt] at h

/-- C10: the write path agrees with the claim's first-match depth-first
traversal (`findWritePath`): no match means `false` with the structure
entirely unchanged; a match at path `p` means the result is exactly the
structure with the single slot at `p` replaced (`setAt`), which changes the
value at `p` and nothing at any path diverging from `p`; on the default
non-stream envelope, updating `"content"` finds exactly the message content
slot inside `choices` and rewrites only it. -/
theorem c10_update_modifies_one_slot :
    (∀ (kvs : List (String × Json)) (key : String) (nv : Json),
       findWritePath kvs key = none →
       update_json_with_key kvs key nv = (false, kvs)) ∧
    (∀ (kvs : List (String × Json)) (key : String) (nv : Json)
       (p : List PathStep),
       findWritePath kvs key = some p →
       (update_json_with_key kvs key nv).1 = true ∧
       (wfEntries kvs = true →
         setAt (.obj kvs) p nv =
           some (.obj (update_json_with_key kvs key nv).2))) ∧
    (∀ (p : List PathStep) (j j' v : Json),
       setAt j p v = some j' → getAt j' p = some v) ∧
    (∀ (p q : List PathStep) (j j' v : Json),
       setAt j p v = some j' →
       pathStartsWith q p = false → pathStartsWith p q = false →
       getAt j' q = getAt j q) ∧
    findWritePath (get_default_response "id0" 0 (Json.str "m")) "content" =
      some [.field "choices", .last, .field "message", .field "content"] ∧
    update_json_with_key (get_default_response "id0" 0 (Json.str "m"))
        "content" (Json.str "hi") =
      (true,
       [("id", Json.str "id0"),
        ("object", Json.str "chat.completion"),
        ("created", Json.num 0),
        ("model", Json.str "m"),
        ("choices", Json.arr [Json.obj [
           ("index", Json.num 0),
           ("message", Json.obj [("role", Json.str "assistant"),
                                 ("content", Json.str "hi")]),
           ("finish_reason", Json.str "stop")]]),
        ("usage", Json.obj [("prompt_tokens", Json.num 0),
                            ("completion_tokens", Json.num 0),
                            ("total_tokens", Json.num 0)])]) := by
  refine ⟨fun kvs key nv => (update_agrees_with_findWritePath kvs key nv).1,
          fun kvs key nv p hp =>
            (update_agrees_with_findWritePath kvs key nv).2 p hp,
          getAt_setAt_same, getAt_setAt_off, ?_, ?_⟩
  · simp [get_default_response, findWritePath, findWritePathEntries,
          findWritePathLast, containsKey, lookupKey]
  · simp [get_default_response, update_json_with_key, updateEntries,
          updateLastElem, containsKey, lookupKey, dictSet]

/-- C10, witness: a failed update leaves the structure unchanged; on the
default envelope the update succeeds at exactly the found path; `setAt`
changes the addressed slot and no diverging one. -/
theorem c10_witness :
    update_json_with_key [("a", Json.num 1)] "b" (Json.num 2) =
      (false, [("a", Json.num 1)]) ∧
    (update_json_with_key (get_default_response "id0" 0 (Json.str "m"))
        "content" (Json.str "hi")).1 = true ∧
    setAt (.obj (get_default_response "id0" 0 (Json.str "m")))
        [.field "choices", .last, .field "message", .field "content"]
        (Json.str "hi") =
      some (.obj (update_json_with_key
        (get_default_response "id0" 0 (Json.str "m")) "content"
        (Json.str "hi")).2) ∧
    getAt (Json.obj [("a", Json.num 9), ("b", Json.num 2)]) [.field "a"] =
      some (Json.num 9) ∧
    getAt (Json.obj [("a", Json.num 9), ("b", Json.num 2)]) [.field "b"] =
      getAt (Json.obj [("a", Json.num 1), ("b", Json.num 2)]) [.field "b"] := by
  have h := c10_update_modifies_one_slot
  refine ⟨h.1 _ "b" _ (by simp [findWritePath, findWritePathEntries,
            containsKey, lookupKey]),
          (h.2.1 _ "content" _ _ h.2.2.2.2.1).1,
          (h.2.1 _ "content" _ _ h.2.2.2.2.1).2
            (by simp [get_default_response, wfEntries, wfJson, wfList,
              containsKey, lookupKey]),
          h.2.2.1 [.field "a"] (Json.obj [("a", Json.num 1), ("b", Json.num 2)])
            (Json.obj [("a", Json.num 9), ("b", Json.num 2)]) (Json.num 9)
            (by simp [setAt, lookupKey, dictSet]),
          h.2.2.2.1 [.field "a"] [.field "b"]
            (Json.obj [("a", Json.num 1), ("b", Json.num 2)])
            (Json.obj [("a", Json.num 9), ("b", Json.num 2)]) (Json.num 9)
            (by simp [setAt, lookupKey, dictSet])
            (by simp [pathStartsWith]) (by simp [pathStartsWith])⟩

end EasyMaaS
